import Mathlib

/-!
CycleFem: predictions, pregnancy-risk classification and statistics.

A shallow embedding of the computational core of `src/server.js`:
`calculatePredictions`, `calculatePregnancyRisk`, the body of the
`GET /api/statistics` handler, and the effect of the `POST`, `PUT` and
`DELETE` handlers of `/api/cycles` on the stored cycle list of a user.

Modelling conventions.

* A date string `YYYY-MM-DD` is parsed by `new Date(..)` to UTC midnight, so a
  date is an integer number of days since 1970-01-01 (an `Int`), and its
  timestamp is that number times `msPerDay` (`getTime`).
* `setDate(getDate() + k)` works on the local time of the server and
  `toISOString()` prints the UTC date, so `calculatePredictions` takes the time
  zone of the server (`TimeZone`) as a parameter.  A `Date` holds a time value
  of at most 8.64e15 ms in absolute value or `NaN` (`none`), and
  `toISOString()` throws a `RangeError` on `NaN` (`Completion`).
* A JavaScript number is an exact rational (`ℚ`).  IEEE rounding is modelled
  where it shows in a result, in the quotient and the product of
  `(regularCycles / cycleLengths.length) * 100` (`toDouble`); the other
  quotients are kept exact.
* A field that is `null`, `undefined` or the empty string is `none`.
-/

namespace CycleFem

/-- The constant `1000 * 60 * 60 * 24` of the source. -/
def msPerDay : Int := 1000 * 60 * 60 * 24

/-- Timestamp of `new Date(d)` in milliseconds, for a date-only string `d`. -/
def getTime (d : Int) : Int := d * msPerDay

/-- Day number of the civil date `y-m-d` (proleptic Gregorian calendar), that
is `new Date("y-m-d").getTime() / 86400000`. -/
def epochDay (y m d : Int) : Int :=
  let y1 := if m ≤ 2 then y - 1 else y
  let era := y1 / 400
  let yoe := y1 - era * 400
  let mp := (m + 9) % 12
  let doy := (153 * mp + 2) / 5 + d - 1
  let doe := yoe * 365 + yoe / 4 - yoe / 100 + doy
  era * 146097 + doe - 719468

/-- The largest absolute time value of a `Date`: 8.64e15 ms, that is
100,000,000 days. -/
def maxTime : Int := 8640000000000000

/-- The operation `TimeClip` of the language: a time value out of range
becomes `NaN`, here `none`. -/
def timeClip (t : Int) : Option Int :=
  if -maxTime ≤ t ∧ t ≤ maxTime then some t else none

/-- The time zone of the server, in milliseconds: `utcOffset t` is the offset
of local time from UTC at the UTC instant `t` (`LocalTZA(t, true)`), and
`localOffset t` is the offset with which the local time value `t` is read back
(`LocalTZA(t, false)`). -/
structure TimeZone where
  utcOffset : Int → Int
  localOffset : Int → Int

/-- A zone whose offset from UTC never changes. -/
def fixedOffset (offset : Int) : TimeZone :=
  { utcOffset := fun _ => offset, localOffset := fun _ => offset }

/-- The zone UTC. -/
def utc : TimeZone := fixedOffset 0

/-- The number of milliseconds in an hour. -/
def msPerHour : Int := 1000 * 60 * 60

/-- The zone Europe/Paris around the year 2024: UTC+2 from 2024-03-31 01:00 UTC
to 2024-10-27 01:00 UTC, UTC+1 otherwise; a local time is read as UTC+2 from
03:00 on 2024-03-31 until 03:00 on 2024-10-27. -/
def paris2024 : TimeZone :=
  { utcOffset := fun t =>
      if getTime (epochDay 2024 3 31) + msPerHour ≤ t
          ∧ t < getTime (epochDay 2024 10 27) + msPerHour then 2 * msPerHour
      else msPerHour
    localOffset := fun t =>
      if getTime (epochDay 2024 3 31) + 3 * msPerHour ≤ t
          ∧ t < getTime (epochDay 2024 10 27) + 3 * msPerHour then 2 * msPerHour
      else msPerHour }

/-- The zone America/New_York around the year 2024: UTC-4 from 2024-03-10 07:00
UTC to 2024-11-03 06:00 UTC, UTC-5 otherwise; a local time is read as UTC-4
from 03:00 on 2024-03-10 until 02:00 on 2024-11-03. -/
def newYork2024 : TimeZone :=
  { utcOffset := fun t =>
      if getTime (epochDay 2024 3 10) + 7 * msPerHour ≤ t
          ∧ t < getTime (epochDay 2024 11 3) + 6 * msPerHour then -4 * msPerHour
      else -5 * msPerHour
    localOffset := fun t =>
      if getTime (epochDay 2024 3 10) + 3 * msPerHour ≤ t
          ∧ t < getTime (epochDay 2024 11 3) + 2 * msPerHour then -4 * msPerHour
      else -5 * msPerHour }

/-- The time value of `new Date(d)` for the date-only string of day `d`. -/
def newDate (d : Int) : Option Int := timeClip (getTime d)

/-- The time value after `date.setDate(date.getDate() + k)`: the local time
of `date` moved by `k` days, read back in the zone and clipped; `NaN` stays
`NaN`. -/
def setDate (tz : TimeZone) (date : Option Int) (k : Int) : Option Int :=
  match date with
  | none => none
  | some t =>
    let localTime := t + tz.utcOffset t
    let moved := localTime + k * msPerDay
    timeClip (moved - tz.localOffset moved)

/-- The day printed by `toISOString().split('T')[0]` for the time value `t`:
the UTC date. -/
def isoDate (t : Int) : Int := t / msPerDay

/-- The outcome of a call: a returned value, or a thrown `RangeError`
(`toISOString()` on an invalid `Date`). -/
inductive Completion (α : Type) where
  | returns (value : α)
  | throwsRangeError
  deriving DecidableEq, Repr

/-- The function `Math.round`: the nearest integer, a tie going up. -/
def mathRound (x : ℚ) : Int := ⌊x + 1 / 2⌋

/-- A cycle record as stored by `POST /api/cycles`; `flow`, `symptoms` and
`createdAt` take no part in any computation and are left out. -/
structure CycleRecord where
  id : String
  startDate : Int
  endDate : Option Int
  customCycleLength : Option Int
  deriving DecidableEq, Repr

/-- The `fertileWindow` object of a prediction. -/
structure FertileWindow where
  start : Int
  end_ : Int
  deriving DecidableEq, Repr

/-- The object returned by `calculatePredictions`. -/
structure Predictions where
  nextPeriod : Int
  ovulation : Int
  fertileWindow : FertileWindow
  avgCycleLength : Int
  deriving DecidableEq, Repr

/-- The callback of `userCycles.map` in `calculatePredictions`: the span
`floor((end - start) / msPerDay) + 1` when `endDate` is truthy, otherwise
`cycle.customCycleLength || 28`, where `||` takes its right operand when the
left one is falsy (absent, or the number `0`). -/
def effectiveLength (cycle : CycleRecord) : Int :=
  match cycle.endDate with
  | some e => (getTime e - getTime cycle.startDate) / msPerDay + 1
  | none =>
    match cycle.customCycleLength with
    | some c => if c ≠ 0 then c else 28
    | none => 28

/-- The function `calculatePredictions(userCycles)` on a server in the zone
`tz`; `returns none` is `null`.  The four dates are computed first and printed
in the returned object, where the first invalid one throws. -/
def calculatePredictions (tz : TimeZone) (userCycles : List CycleRecord) :
    Completion (Option Predictions) :=
  if h : userCycles.length = 0 then Completion.returns none
  else
    let cycleLengths := userCycles.map effectiveLength
    let avgCycleLength : ℚ :=
      ((cycleLengths.foldl (fun sum length => sum + length) 0 : Int) : ℚ) / (cycleLengths.length : ℚ)
    let lastCycle := userCycles.getLast (by intro hn; simp [hn] at h)
    let lastStart := newDate lastCycle.startDate
    let nextPeriodDate := setDate tz lastStart (mathRound avgCycleLength)
    let ovulationDate := setDate tz nextPeriodDate (-14)
    let fertileStart := setDate tz ovulationDate (-5)
    let fertileEnd := setDate tz ovulationDate 1
    match nextPeriodDate, ovulationDate, fertileStart, fertileEnd with
    | some nextPeriod, some ovulation, some start, some end_ =>
      Completion.returns (some
        { nextPeriod := isoDate nextPeriod
          ovulation := isoDate ovulation
          fertileWindow := { start := isoDate start, end_ := isoDate end_ }
          avgCycleLength := mathRound avgCycleLength })
    | _, _, _, _ => Completion.throwsRangeError

/-- Lines 57-82 of `calculatePredictions` as a function of the day of the
last start and of the rounded average. -/
def predictionDates (tz : TimeZone) (lastStartDay rounded : Int) :
    Completion (Option Predictions) :=
  let lastStart := newDate lastStartDay
  let nextPeriodDate := setDate tz lastStart rounded
  let ovulationDate := setDate tz nextPeriodDate (-14)
  let fertileStart := setDate tz ovulationDate (-5)
  let fertileEnd := setDate tz ovulationDate 1
  match nextPeriodDate, ovulationDate, fertileStart, fertileEnd with
  | some nextPeriod, some ovulation, some start, some end_ =>
    Completion.returns (some
      { nextPeriod := isoDate nextPeriod
        ovulation := isoDate ovulation
        fertileWindow := { start := isoDate start, end_ := isoDate end_ }
        avgCycleLength := rounded })
  | _, _, _, _ => Completion.throwsRangeError

/-- The values of `pregnancyRisk`. -/
inductive Risk where
  | unknown
  | low
  | medium
  | high
  deriving DecidableEq, Repr

/-- The function `calculatePregnancyRisk(activityDate, predictions)`. -/
def calculatePregnancyRisk (activityDate : Int) (predictions : Option Predictions) : Risk :=
  match predictions with
  | none => Risk.unknown
  | some p =>
    let activity := getTime activityDate
    let fertileStart := getTime p.fertileWindow.start
    let fertileEnd := getTime p.fertileWindow.end_
    let ovulation := getTime p.ovulation
    if fertileStart ≤ activity ∧ activity ≤ fertileEnd then
      let daysDiff : ℚ := |((activity - ovulation : Int) : ℚ) / (msPerDay : ℚ)|
      if daysDiff ≤ 1 then Risk.high
      else if daysDiff ≤ 2 then Risk.medium
      else Risk.medium
    else Risk.low

/-- The nearest integer, a tie going to the even one. -/
def roundHalfEven (x : ℚ) : Int :=
  let f := ⌊x⌋
  if x - f < 1 / 2 then f
  else if 1 / 2 < x - f then f + 1
  else if f % 2 = 0 then f else f + 1

/-- The IEEE 754 double nearest to `x`, a tie going to the even significand:
`x` is rounded to a multiple of `2 ^ (e - 52)`, where `2 ^ e ≤ |x| < 2 ^ (e + 1)`.
The exponent range of doubles is not limited. -/
def toDouble (x : ℚ) : ℚ :=
  if x = 0 then 0
  else
    let e := Int.log 2 |x|
    let ulp : ℚ := 2 ^ (e - 52)
    (roundHalfEven (x / ulp) : ℚ) * ulp

/-- The JSON object answered by `GET /api/statistics`. -/
structure Statistics where
  totalCycles : Nat
  averageCycleLength : ℚ
  averagePeriodLength : ℚ
  regularity : Int
  deriving DecidableEq, Repr

/-- The loop `for (let i = 1; i < userCycles.length; i++)` of the statistics
handler: one sample `floor((currentStart - prevStart) / msPerDay)` for each
pair of adjacent array elements. -/
def cycleLengthSamples : List CycleRecord → List Int
  | prev :: cur :: rest =>
    ((getTime cur.startDate - getTime prev.startDate) / msPerDay) :: cycleLengthSamples (cur :: rest)
  | _ => []

/-- The chain `userCycles.filter(cycle => cycle.endDate).map(..)` of the
statistics handler: `floor((end - start) / msPerDay) + 1` for every record
whose `endDate` is truthy, in array order. -/
def periodLengthSamples (userCycles : List CycleRecord) : List Int :=
  userCycles.filterMap fun cycle =>
    cycle.endDate.map fun e => (getTime e - getTime cycle.startDate) / msPerDay + 1

/-- The body of the `GET /api/statistics` handler, as a function of the
stored cycle list of the user.  The quotient `regularCycles /
cycleLengths.length` and its product with 100 are rounded to doubles. -/
def statistics (userCycles : List CycleRecord) : Statistics :=
  if userCycles.length = 0 then
    { totalCycles := 0, averageCycleLength := 0, averagePeriodLength := 0, regularity := 0 }
  else
    let cycleLengths := cycleLengthSamples userCycles
    let periodLengths := periodLengthSamples userCycles
    let avgCycleLength : ℚ :=
      if cycleLengths.length > 0 then
        ((cycleLengths.foldl (fun sum length => sum + length) 0 : Int) : ℚ) / (cycleLengths.length : ℚ)
      else 0
    let avgPeriodLength : ℚ :=
      if periodLengths.length > 0 then
        ((periodLengths.foldl (fun sum length => sum + length) 0 : Int) : ℚ) / (periodLengths.length : ℚ)
      else 0
    let regularCycles : Nat :=
      if cycleLengths.length > 0 then
        (cycleLengths.filter fun length : Int => decide (|(length : ℚ) - avgCycleLength| ≤ 2)).length
      else 0
    let regularity : ℚ :=
      if cycleLengths.length > 0 then
        toDouble (toDouble ((regularCycles : ℚ) / (cycleLengths.length : ℚ)) * 100)
      else 0
    { totalCycles := userCycles.length
      averageCycleLength := (mathRound (avgCycleLength * 10) : ℚ) / 10
      averagePeriodLength := (mathRound (avgPeriodLength * 10) : ℚ) / 10
      regularity := mathRound regularity }

/-- The call `userCycles.sort((a, b) => new Date(a.startDate) - new Date(b.startDate))`
of the `POST /api/cycles` handler: `a` stays before `b` when the comparator is
not positive, and `Array.prototype.sort` is stable. -/
def sortCycles (userCycles : List CycleRecord) : List CycleRecord :=
  userCycles.insertionSort fun a b => getTime a.startDate - getTime b.startDate ≤ 0

/-- The fields of a `POST /api/cycles` body that reach the stored record;
a missing `startDate` is `none`. -/
structure PostBody where
  startDate : Option Int
  endDate : Option Int
  deriving DecidableEq, Repr

/-- The handler of `POST /api/cycles` on the stored list: without `startDate`
the request is refused (400) and nothing changes; otherwise the new record,
with the identifier given by `generateId()` and the `cycleLength` of the user,
is pushed and the list is sorted. -/
def postCycles (newId : String) (cycleLength : Int) (body : PostBody)
    (userCycles : List CycleRecord) : List CycleRecord :=
  match body.startDate with
  | none => userCycles
  | some startDate =>
    let cycle : CycleRecord :=
      { id := newId, startDate := startDate, endDate := body.endDate,
        customCycleLength := some cycleLength }
    sortCycles (userCycles ++ [cycle])

/-- The fields of a `PUT /api/cycles/:id` body that touch the dates: a falsy
`startDate` is `none`; `endDate` is `none` when it is `undefined` and
`some v` when the body carries the value `v` (`v = none` for `null`). -/
structure PutBody where
  startDate : Option Int
  endDate : Option (Option Int)
  deriving DecidableEq, Repr

/-- The assignments of the `PUT /api/cycles/:id` handler to the record found. -/
def applyPut (body : PutBody) (cycle : CycleRecord) : CycleRecord :=
  { cycle with
    startDate := match body.startDate with
      | some startDate => startDate
      | none => cycle.startDate
    endDate := match body.endDate with
      | some endDate => endDate
      | none => cycle.endDate }

/-- The handler of `PUT /api/cycles/:id` on the stored list: the first record
with that identifier is updated in place; when there is none (`findIndex`
gives -1, here the length of the list) the request is refused (404). -/
def putCycle (id : String) (body : PutBody) (userCycles : List CycleRecord) :
    List CycleRecord :=
  let cycleIndex := userCycles.findIdx fun c => c.id == id
  if cycleIndex = userCycles.length then userCycles
  else userCycles.modify (applyPut body) cycleIndex

/-- The handler of `DELETE /api/cycles/:id` on the stored list: the records
with another identifier are kept; when nothing was removed the request is
refused (404) and the stored list stays. -/
def deleteCycle (id : String) (userCycles : List CycleRecord) : List CycleRecord :=
  let filteredCycles := userCycles.filter fun c => c.id != id
  if filteredCycles.length = userCycles.length then userCycles
  else filteredCycles

/-- A cycle operation of a user. -/
inductive CycleOp where
  | post (newId : String) (cycleLength : Int) (body : PostBody)
  | put (id : String) (body : PutBody)
  | delete (id : String)
  deriving DecidableEq, Repr

/-- The stored list after one cycle operation. -/
def stepCycles (userCycles : List CycleRecord) : CycleOp → List CycleRecord
  | CycleOp.post newId cycleLength body => postCycles newId cycleLength body userCycles
  | CycleOp.put id body => putCycle id body userCycles
  | CycleOp.delete id => deleteCycle id userCycles

/-- The stored list after a sequence of cycle operations, from the empty list
set by `POST /api/register`. -/
def runCycles (ops : List CycleOp) : List CycleRecord :=
  ops.foldl stepCycles []


/-! ## Reference definitions, following the specification -/

/-- The largest day number of a `Date`: 100,000,000 days from 1970-01-01. -/
def maxDay : Int := 100000000

/-- Effective length of a record in the words of the specification: the
inclusive span in days when `endDate` is present, otherwise
`customCycleLength` if present, otherwise 28. -/
def specEffectiveLength (cycle : CycleRecord) : Int :=
  match cycle.endDate, cycle.customCycleLength with
  | some e, _ => e - cycle.startDate + 1
  | none, some c => c
  | none, none => 28

/-- Arithmetic mean of the effective lengths over the whole history. -/
def specMeanLength (history : List CycleRecord) : ℚ :=
  (((history.map specEffectiveLength).sum : Int) : ℚ) / (history.length : ℚ)

/-- Effective length of a record as the code takes it: the inclusive span in
days when `endDate` is present, otherwise `customCycleLength` if present and
not zero, otherwise 28. -/
def nonzeroEffectiveLength (cycle : CycleRecord) : Int :=
  match cycle.endDate, cycle.customCycleLength with
  | some e, _ => e - cycle.startDate + 1
  | none, some c => if c = 0 then 28 else c
  | none, none => 28

/-- Arithmetic mean of these effective lengths over the whole history. -/
def nonzeroMeanLength (history : List CycleRecord) : ℚ :=
  (((history.map nonzeroEffectiveLength).sum : Int) : ℚ) / (history.length : ℚ)

/-- The prediction with the given `nextPeriod` and rounded average whose other
dates stand where the comments of the code put them: ovulation 14 days before
the next period, fertile window from 5 days before ovulation to 1 day after. -/
def predictionAt (nextPeriod avgCycleLength : Int) : Predictions :=
  { nextPeriod := nextPeriod
    ovulation := nextPeriod - 14
    fertileWindow := { start := nextPeriod - 14 - 5, end_ := nextPeriod - 14 + 1 }
    avgCycleLength := avgCycleLength }

/-- The history in ascending order of `startDate`, ties kept in their
original order (a stable sort). -/
def sortByStartDate (history : List CycleRecord) : List CycleRecord :=
  history.insertionSort fun a b => a.startDate ≤ b.startDate

/-- The single closed cycle 2024-01-01 .. 2024-01-05 of the specification. -/
def singleCycle : CycleRecord :=
  { id := "c1", startDate := epochDay 2024 1 1, endDate := some (epochDay 2024 1 5),
    customCycleLength := some 28 }

/-- A prediction whose ovulation date is 2024-01-20, as returned for one open
cycle starting 2024-01-06 with the default length 28. -/
def januaryPredictions : Predictions :=
  { nextPeriod := epochDay 2024 2 3
    ovulation := epochDay 2024 1 20
    fertileWindow := { start := epochDay 2024 1 15, end_ := epochDay 2024 1 21 }
    avgCycleLength := 28 }

/-- An open cycle starting 2024-01-01, with the default declared length. -/
def cycleJan01 : CycleRecord :=
  { id := "a", startDate := epochDay 2024 1 1, endDate := none, customCycleLength := some 28 }

/-- An open cycle starting 2024-01-29, with the default declared length. -/
def cycleJan29 : CycleRecord :=
  { id := "b", startDate := epochDay 2024 1 29, endDate := none, customCycleLength := some 28 }

/-- An open cycle starting 2024-01-01 whose declared length is `v`. -/
def cycleWithLength (v : Int) : CycleRecord :=
  { id := "a", startDate := epochDay 2024 1 1, endDate := none, customCycleLength := some v }

/-- Mean of a list of samples as a number, 0 when there is no sample. -/
def meanOf (samples : List Int) : ℚ :=
  if samples.length > 0 then ((samples.sum : Int) : ℚ) / (samples.length : ℚ) else 0

/-- Inclusive day spans `endDate - startDate + 1` of the records that have an
`endDate`, in array order. -/
def specPeriodSpans (history : List CycleRecord) : List Int :=
  history.filterMap fun c => c.endDate.map fun e => e - c.startDate + 1

/-- The prediction of the specification for the single closed cycle
2024-01-01 .. 2024-01-05. -/
def singleCyclePredictions : Predictions :=
  { nextPeriod := epochDay 2024 1 6
    ovulation := epochDay 2023 12 23
    fertileWindow := { start := epochDay 2023 12 18, end_ := epochDay 2023 12 24 }
    avgCycleLength := 5 }

/-- The history is ascending by `startDate`. -/
def Ascending (history : List CycleRecord) : Prop :=
  history.Sorted fun a b => a.startDate ≤ b.startDate

instance (history : List CycleRecord) : Decidable (Ascending history) :=
  List.decidableSorted history

/-- Two cycles are logged on 2024-01-01 and 2024-01-29, then the start of the
first one is moved to 2024-03-01. -/
def moveFirstCycle : List CycleOp :=
  [ CycleOp.post "a" 28 { startDate := some (epochDay 2024 1 1), endDate := none },
    CycleOp.post "b" 28 { startDate := some (epochDay 2024 1 29), endDate := none },
    CycleOp.put "a" { startDate := some (epochDay 2024 3 1), endDate := none } ]

/-- An open cycle starting 2024-03-01 with the identifier of `cycleJan01`. -/
def cycleMar01 : CycleRecord :=
  { id := "a", startDate := epochDay 2024 3 1, endDate := none, customCycleLength := some 28 }

/-- An open cycle starting 2024-03-10, with the default declared length. -/
def cycleMar10 : CycleRecord :=
  { id := "p", startDate := epochDay 2024 3 10, endDate := none, customCycleLength := some 28 }

/-- The closed cycle 2024-11-06 .. 2024-11-10. -/
def cycleNov06 : CycleRecord :=
  { id := "n", startDate := epochDay 2024 11 6, endDate := some (epochDay 2024 11 10),
    customCycleLength := some 28 }

/-- An open cycle starting 2024-01-11. -/
def cycleJan11 : CycleRecord :=
  { id := "m", startDate := epochDay 2024 1 11, endDate := none, customCycleLength := some 28 }

/-- An open cycle starting 2024-02-26. -/
def cycleFeb26 : CycleRecord :=
  { id := "z", startDate := epochDay 2024 2 26, endDate := none, customCycleLength := some 28 }

/-- Open cycles logged from a first start date, one for each gap in days
between consecutive starts. -/
def openCyclesFrom (start : Int) : List Int → List CycleRecord
  | [] =>
    [{ id := toString start, startDate := start, endDate := none, customCycleLength := some 28 }]
  | gap :: gaps =>
    { id := toString start, startDate := start, endDate := none, customCycleLength := some 28 }
      :: openCyclesFrom (start + gap) gaps

/-- Forty gaps: 23 of 28 days, 8 of 18 days and 9 of 38 days; their mean is
28.25 days, so the 23 gaps of 28 days are the regular ones. -/
def gaps40 : List Int :=
  List.replicate 23 28 ++ List.replicate 8 18 ++ List.replicate 9 38

/-- The 41 open cycles logged from 2024-01-01 with the gaps `gaps40`. -/
def history41 : List CycleRecord := openCyclesFrom (epochDay 2024 1 1) gaps40

/-- The number of cycle-length samples within 2 days of their unrounded mean. -/
def regularCount (history : List CycleRecord) : Nat :=
  (cycleLengthSamples history).countP
    fun x : Int => decide (|(x : ℚ) - meanOf (cycleLengthSamples history)| ≤ 2)

/-- The exact percentage `100 * regularCount / number of samples`. -/
def regularPercent (history : List CycleRecord) : ℚ :=
  100 * (regularCount history : ℚ) / ((cycleLengthSamples history).length : ℚ)

/-! ## Auxiliary facts -/

theorem getTime_sub_div (a b : Int) : (getTime a - getTime b) / msPerDay = a - b := by
  unfold getTime
  rw [← sub_mul]
  exact Int.mul_ediv_cancel _ (by decide)

theorem foldl_add_eq_sum (l : List Int) :
    l.foldl (fun sum length => sum + length) 0 = l.sum := by
  have key : ∀ (xs : List Int) (acc : Int),
      xs.foldl (fun sum length => sum + length) acc = acc + xs.sum := by
    intro xs
    induction xs with
    | nil => intro acc; simp
    | cons x xs ih => intro acc; simp [ih, add_assoc]
  simpa using key l 0

/-- Characterisation of `Math.round`: the integer `k` with `k - 1/2 ≤ x < k + 1/2`. -/
theorem mathRound_spec (x : ℚ) :
    ((mathRound x : Int) : ℚ) - 1 / 2 ≤ x ∧ x < (mathRound x : Int) + 1 / 2 := by
  unfold mathRound
  have h1 := Int.floor_le (x + 1 / 2)
  have h2 := Int.lt_floor_add_one (x + 1 / 2)
  constructor <;> linarith

theorem mathRound_unique (x : ℚ) (k : Int) (h1 : (k : ℚ) - 1 / 2 ≤ x) (h2 : x < k + 1 / 2) :
    mathRound x = k := by
  unfold mathRound
  rw [Int.floor_eq_iff]
  constructor <;> linarith

theorem mathRound_div (a : Int) (n : Nat) (hn : 0 < n) :
    mathRound ((a : ℚ) / (n : ℚ)) = (2 * a + n) / (2 * n) := by
  unfold mathRound
  have hn0 : (n : ℚ) ≠ 0 := by exact_mod_cast hn.ne'
  have e : (a : ℚ) / (n : ℚ) + 1 / 2 = ((2 * a + n : Int) : ℚ) / ((2 * n : Nat) : ℚ) := by
    push_cast
    field_simp
    ring
  rw [e, Rat.floor_intCast_div_natCast]
  push_cast
  rfl

theorem msPerDay_eq : msPerDay = 86400000 := by decide

theorem timeClip_getTime (d : Int) :
    timeClip (getTime d) = if -100000000 ≤ d ∧ d ≤ 100000000 then some (getTime d) else none := by
  unfold timeClip getTime maxTime
  rw [msPerDay_eq]
  by_cases hd : -100000000 ≤ d ∧ d ≤ 100000000
  · rw [if_pos hd, if_pos (by omega)]
  · rw [if_neg hd, if_neg (by omega)]

theorem isoDate_getTime (d : Int) : isoDate (getTime d) = d := by
  unfold isoDate getTime
  exact Int.mul_ediv_cancel _ (by decide)

/-- In a zone of fixed offset `setDate` moves the UTC time value by whole days. -/
theorem setDate_fixedOffset (offset d k : Int) :
    setDate (fixedOffset offset) (some (getTime d)) k = timeClip (getTime (d + k)) := by
  unfold setDate fixedOffset getTime
  dsimp only
  congr 1
  ring

/-- Closed form of `predictionDates` in a zone of fixed offset. -/
theorem predictionDates_fixedOffset (offset s r : Int) :
    predictionDates (fixedOffset offset) s r =
      if (-100000000 ≤ s ∧ s ≤ 100000000) ∧ -100000000 ≤ s + r - 19 ∧ s + r ≤ 100000000 then
        Completion.returns (some
          { nextPeriod := s + r
            ovulation := s + r - 14
            fertileWindow := { start := s + r - 19, end_ := s + r - 13 }
            avgCycleLength := r })
      else Completion.throwsRangeError := by
  unfold predictionDates newDate
  dsimp only
  rw [timeClip_getTime]
  by_cases h1 : -100000000 ≤ s ∧ s ≤ 100000000
  · rw [if_pos h1, setDate_fixedOffset, timeClip_getTime]
    by_cases h2 : -100000000 ≤ s + r ∧ s + r ≤ 100000000
    · rw [if_pos h2, setDate_fixedOffset, timeClip_getTime]
      by_cases h3 : -100000000 ≤ s + r + -14 ∧ s + r + -14 ≤ 100000000
      · rw [if_pos h3, setDate_fixedOffset, setDate_fixedOffset, timeClip_getTime,
          timeClip_getTime]
        by_cases h4 : -100000000 ≤ s + r + -14 + -5 ∧ s + r + -14 + -5 ≤ 100000000
        · have h5 : -100000000 ≤ s + r + -14 + 1 ∧ s + r + -14 + 1 ≤ 100000000 := by
            constructor <;> omega
          have hR : (-100000000 ≤ s ∧ s ≤ 100000000) ∧ -100000000 ≤ s + r - 19
              ∧ s + r ≤ 100000000 := ⟨h1, by omega, by omega⟩
          rw [if_pos h4, if_pos h5, if_pos hR]
          simp only [isoDate_getTime]
          have e1 : s + r + -14 = s + r - 14 := by ring
          have e2 : s + r + -14 + -5 = s + r - 19 := by ring
          have e3 : s + r + -14 + 1 = s + r - 13 := by ring
          rw [e2, e3, e1]
        · have hR : ¬ ((-100000000 ≤ s ∧ s ≤ 100000000) ∧ -100000000 ≤ s + r - 19
              ∧ s + r ≤ 100000000) := by
            intro hc
            apply h4
            constructor <;> omega
          rw [if_neg h4, if_neg hR]
      · have hR : ¬ ((-100000000 ≤ s ∧ s ≤ 100000000) ∧ -100000000 ≤ s + r - 19
            ∧ s + r ≤ 100000000) := by
          intro hc
          apply h3
          constructor <;> omega
        rw [if_neg h3, if_neg hR]
    · have hR : ¬ ((-100000000 ≤ s ∧ s ≤ 100000000) ∧ -100000000 ≤ s + r - 19
          ∧ s + r ≤ 100000000) := by
        intro hc
        apply h2
        constructor <;> omega
      rw [if_neg h2, if_neg hR]
  · have hR : ¬ ((-100000000 ≤ s ∧ s ≤ 100000000) ∧ -100000000 ≤ s + r - 19
        ∧ s + r ≤ 100000000) := fun hc => h1 hc.1
    rw [if_neg h1, if_neg hR]
    simp [setDate]

theorem predictionDates_ne_null (tz : TimeZone) (s r : Int) :
    predictionDates tz s r ≠ Completion.returns none := by
  unfold predictionDates
  dsimp only
  split
  · simp
  · simp

theorem calculatePredictions_eq (tz : TimeZone) (h : List CycleRecord) (hne : h ≠ []) :
    calculatePredictions tz h =
      predictionDates tz (h.getLast hne).startDate
        ((2 * (h.map effectiveLength).sum + h.length) / (2 * h.length)) := by
  have hlen : h.length ≠ 0 := by
    intro h0
    exact hne (List.length_eq_zero.mp h0)
  have hpos : 0 < h.length := Nat.pos_of_ne_zero hlen
  unfold calculatePredictions predictionDates
  rw [dif_neg hlen]
  simp only [foldl_add_eq_sum, List.length_map, mathRound_div _ _ hpos]

theorem calculatePredictions_eq_none_iff (tz : TimeZone) (h : List CycleRecord) :
    calculatePredictions tz h = Completion.returns none ↔ h = [] := by
  constructor
  · intro hn
    by_contra hne
    rw [calculatePredictions_eq tz h hne] at hn
    exact predictionDates_ne_null _ _ _ hn
  · intro he
    subst he
    rfl

theorem effectiveLength_eq_nonzero (c : CycleRecord) :
    effectiveLength c = nonzeroEffectiveLength c := by
  unfold effectiveLength nonzeroEffectiveLength
  cases he : c.endDate with
  | some e => simp [getTime_sub_div]
  | none =>
    cases hv : c.customCycleLength with
    | none => simp
    | some v =>
      by_cases hv0 : v = 0
      · simp [hv0]
      · simp [hv0]

/-- The rounded average of `calculatePredictions` is `Math.round` of the mean
of the effective lengths. -/
theorem rounded_eq_mathRound (h : List CycleRecord) (hne : h ≠ []) :
    (2 * (h.map effectiveLength).sum + h.length) / (2 * h.length)
      = mathRound (nonzeroMeanLength h) := by
  have hmap : h.map effectiveLength = h.map nonzeroEffectiveLength :=
    List.map_congr_left fun c _ => effectiveLength_eq_nonzero c
  unfold nonzeroMeanLength
  rw [mathRound_div _ _ (List.length_pos.mpr hne), hmap]

/-- A prediction that is returned carries the rounded average. -/
theorem predictionDates_avgCycleLength (tz : TimeZone) (s r : Int) (p : Predictions)
    (hp : predictionDates tz s r = Completion.returns (some p)) : p.avgCycleLength = r := by
  unfold predictionDates at hp
  dsimp only at hp
  split at hp
  · injection hp with hp
    injection hp with hp
    rw [← hp]
  · exact absurd hp (by simp)

/-- What `calculatePredictions` returns in a zone of fixed offset. -/
theorem calculatePredictions_fixedOffset (offset : Int) (h : List CycleRecord) (hne : h ≠ []) :
    calculatePredictions (fixedOffset offset) h =
      if (-100000000 ≤ (h.getLast hne).startDate ∧ (h.getLast hne).startDate ≤ 100000000)
          ∧ -100000000 ≤ (h.getLast hne).startDate + mathRound (nonzeroMeanLength h) - 19
          ∧ (h.getLast hne).startDate + mathRound (nonzeroMeanLength h) ≤ 100000000 then
        Completion.returns (some
          { nextPeriod := (h.getLast hne).startDate + mathRound (nonzeroMeanLength h)
            ovulation := (h.getLast hne).startDate + mathRound (nonzeroMeanLength h) - 14
            fertileWindow :=
              { start := (h.getLast hne).startDate + mathRound (nonzeroMeanLength h) - 19
                end_ := (h.getLast hne).startDate + mathRound (nonzeroMeanLength h) - 13 }
            avgCycleLength := mathRound (nonzeroMeanLength h) })
      else Completion.throwsRangeError := by
  rw [calculatePredictions_eq _ h hne, rounded_eq_mathRound h hne, predictionDates_fixedOffset]

/-- The dates of a prediction returned in a zone of fixed offset. -/
theorem fixedOffset_returns (offset : Int) (h : List CycleRecord) (p : Predictions)
    (hp : calculatePredictions (fixedOffset offset) h = Completion.returns (some p)) :
    p.ovulation = p.nextPeriod - 14 ∧ p.fertileWindow.start = p.nextPeriod - 19 ∧
      p.fertileWindow.end_ = p.nextPeriod - 13 := by
  have hne : h ≠ [] := by
    intro h0
    subst h0
    exact absurd hp (by simp [calculatePredictions])
  rw [calculatePredictions_fixedOffset offset h hne] at hp
  split_ifs at hp
  injection hp with hp
  injection hp with hp
  subst hp
  exact ⟨rfl, rfl, rfl⟩

theorem getTime_le_iff (a b : Int) : getTime a ≤ getTime b ↔ a ≤ b := by
  unfold getTime
  exact mul_le_mul_right (by decide : (0 : Int) < msPerDay)

theorem daysDiff_eq (a o : Int) :
    |((getTime a - getTime o : Int) : ℚ) / (msPerDay : ℚ)| = ((|a - o| : Int) : ℚ) := by
  have hms : ((msPerDay : Int) : ℚ) ≠ 0 := by
    have : (msPerDay : Int) ≠ 0 := by decide
    exact_mod_cast this
  have e : ((getTime a - getTime o : Int) : ℚ) / (msPerDay : ℚ) = ((a - o : Int) : ℚ) := by
    unfold getTime
    push_cast
    field_simp
    ring
  rw [e, Int.cast_abs]

theorem daysDiff_le_iff (a o : Int) (k : Int) :
    |((getTime a - getTime o : Int) : ℚ) / (msPerDay : ℚ)| ≤ (k : ℚ) ↔ |a - o| ≤ k := by
  rw [daysDiff_eq]
  exact Int.cast_le

/-- Closed form of `calculatePregnancyRisk` on a non-null prediction, in days. -/
theorem calculatePregnancyRisk_some (d : Int) (p : Predictions) :
    calculatePregnancyRisk d (some p) =
      if p.fertileWindow.start ≤ d ∧ d ≤ p.fertileWindow.end_ then
        (if |d - p.ovulation| ≤ 1 then Risk.high else Risk.medium)
      else Risk.low := by
  have h1 := daysDiff_le_iff d p.ovulation 1
  have h2 := daysDiff_le_iff d p.ovulation 2
  simp only [Int.cast_one, Int.cast_ofNat] at h1 h2
  simp only [calculatePregnancyRisk, getTime_le_iff, h1, h2, ite_self]

theorem calculatePredictions_congr (tz : TimeZone) (h h1 : List CycleRecord)
    (hlen : h.length = h1.length)
    (hsum : (h.map effectiveLength).sum = (h1.map effectiveLength).sum)
    (hlast : h.getLast?.map (fun c => c.startDate) = h1.getLast?.map (fun c => c.startDate)) :
    calculatePredictions tz h = calculatePredictions tz h1 := by
  by_cases hne : h = []
  · subst hne
    have h1nil : h1 = [] := List.length_eq_zero.mp hlen.symm
    subst h1nil
    rfl
  · have hne1 : h1 ≠ [] := by
      intro h0
      subst h0
      exact hne (List.length_eq_zero.mp hlen)
    have hl : (h.getLast hne).startDate = (h1.getLast hne1).startDate := by
      rw [List.getLast?_eq_getLast _ hne, List.getLast?_eq_getLast _ hne1] at hlast
      simpa using hlast
    rw [calculatePredictions_eq tz h hne, calculatePredictions_eq tz h1 hne1, hl, hsum, hlen]

/-- The rounded average carried by a returned prediction. -/
theorem returns_avgCycleLength (tz : TimeZone) (h : List CycleRecord) (p : Predictions)
    (hp : calculatePredictions tz h = Completion.returns (some p)) :
    p.avgCycleLength = (2 * (h.map effectiveLength).sum + h.length) / (2 * h.length) := by
  have hne : h ≠ [] := by
    intro h0
    subst h0
    exact absurd hp (by simp [calculatePredictions])
  rw [calculatePredictions_eq tz h hne] at hp
  exact predictionDates_avgCycleLength _ _ _ _ hp

theorem perm_sum_effectiveLength (h h1 : List CycleRecord) (hp : h1.Perm h) :
    (h1.map effectiveLength).sum = (h.map effectiveLength).sum :=
  (hp.map effectiveLength).sum_eq

theorem perm_nonzeroMeanLength (h h1 : List CycleRecord) (hp : h1.Perm h) :
    nonzeroMeanLength h1 = nonzeroMeanLength h := by
  unfold nonzeroMeanLength
  rw [(hp.map nonzeroEffectiveLength).sum_eq, hp.length_eq]

theorem sortByStartDate_perm (h : List CycleRecord) : (sortByStartDate h).Perm h :=
  List.perm_insertionSort _ h

theorem sortByStartDate_sorted (h : List CycleRecord) :
    (sortByStartDate h).Sorted (fun a b => a.startDate ≤ b.startDate) := by
  haveI : IsTotal CycleRecord (fun a b => a.startDate ≤ b.startDate) :=
    ⟨fun a b => le_total a.startDate b.startDate⟩
  haveI : IsTrans CycleRecord (fun a b => a.startDate ≤ b.startDate) :=
    ⟨fun _ _ _ hab hbc => le_trans hab hbc⟩
  exact List.sorted_insertionSort _ h

/-- Two arrangements of the same records that are both ascending by
`startDate` carry the same sequence of start dates. -/
theorem startDates_eq_of_sorted (h h1 : List CycleRecord) (hp : h1.Perm h)
    (hs : h.Sorted (fun a b => a.startDate ≤ b.startDate))
    (hs1 : h1.Sorted (fun a b => a.startDate ≤ b.startDate)) :
    h1.map (fun c => c.startDate) = h.map (fun c => c.startDate) := by
  apply List.eq_of_perm_of_sorted (hp.map _) (r := fun a b : Int => a ≤ b)
  · exact List.pairwise_map.mpr hs1
  · exact List.pairwise_map.mpr hs

theorem getLast?_startDate_of_map_eq (h h1 : List CycleRecord)
    (hm : h1.map (fun c => c.startDate) = h.map (fun c => c.startDate)) :
    h1.getLast?.map (fun c => c.startDate) = h.getLast?.map (fun c => c.startDate) := by
  have e1 := List.getLast?_map (fun c : CycleRecord => c.startDate) h1
  have e2 := List.getLast?_map (fun c : CycleRecord => c.startDate) h
  rw [← e1, ← e2, hm]

theorem mathRound_zero : mathRound 0 = 0 :=
  mathRound_unique 0 0 (by norm_num) (by norm_num)

theorem effectiveLength_open_zero (c : CycleRecord) (he : c.endDate = none)
    (hv : c.customCycleLength = some 0) : effectiveLength c = 28 := by
  simp [effectiveLength, he, hv]

theorem effectiveLength_open_absent (c : CycleRecord) (he : c.endDate = none) :
    effectiveLength { c with customCycleLength := none } = 28 := by
  simp [effectiveLength, he]

theorem effectiveLength_open_nonzero (c : CycleRecord) (v : Int) (he : c.endDate = none)
    (hv : c.customCycleLength = some v) (h0 : v ≠ 0) : effectiveLength c = v := by
  simp [effectiveLength, he, hv, h0]

theorem cycleLengthSamples_length (h : List CycleRecord) :
    (cycleLengthSamples h).length = h.length - 1 := by
  induction h with
  | nil => rfl
  | cons a t ih =>
    cases t with
    | nil => rfl
    | cons b r =>
      simp only [cycleLengthSamples, List.length_cons] at ih ⊢
      omega

theorem cycleLengthSamples_getElem? (h : List CycleRecord) (i : Nat) (a b : CycleRecord)
    (ha : h[i]? = some a) (hb : h[i + 1]? = some b) :
    (cycleLengthSamples h)[i]? = some (b.startDate - a.startDate) := by
  induction h generalizing i with
  | nil => simp at ha
  | cons x t ih =>
    cases t with
    | nil => simp at hb
    | cons y r =>
      cases i with
      | zero =>
        simp only [List.getElem?_cons_zero, Option.some.injEq, zero_add,
          List.getElem?_cons_succ] at ha hb
        subst ha
        subst hb
        simp [cycleLengthSamples, getTime_sub_div]
      | succ j =>
        rw [List.getElem?_cons_succ] at ha hb
        simp only [cycleLengthSamples, List.getElem?_cons_succ]
        exact ih j ha hb

theorem periodLengthSamples_eq (h : List CycleRecord) :
    periodLengthSamples h = specPeriodSpans h := by
  unfold periodLengthSamples specPeriodSpans
  simp only [getTime_sub_div]

theorem roundHalfEven_spec (x : ℚ) :
    (roundHalfEven x : ℚ) - 1 / 2 ≤ x ∧ x ≤ (roundHalfEven x : ℚ) + 1 / 2 := by
  have h1 := Int.floor_le x
  have h2 := Int.lt_floor_add_one x
  unfold roundHalfEven
  dsimp only
  split_ifs with ha hb hc
  · constructor <;> linarith
  · push_cast
    constructor <;> linarith
  · constructor <;> linarith
  · push_cast
    constructor <;> linarith

theorem roundHalfEven_le (x : ℚ) (N : Int) (hx : x ≤ N) : roundHalfEven x ≤ N := by
  have h1 := Int.floor_le x
  have hf : ⌊x⌋ ≤ N := by
    have : ((⌊x⌋ : Int) : ℚ) ≤ (N : ℚ) := le_trans h1 hx
    exact_mod_cast this
  unfold roundHalfEven
  dsimp only
  split_ifs with ha hb hc
  · exact hf
  · have : ((⌊x⌋ : Int) : ℚ) < (N : ℚ) := by linarith
    have : ⌊x⌋ < N := by exact_mod_cast this
    omega
  · exact hf
  · have : ((⌊x⌋ : Int) : ℚ) < (N : ℚ) := by linarith
    have : ⌊x⌋ < N := by exact_mod_cast this
    omega

theorem roundHalfEven_nonneg (x : ℚ) (hx : 0 ≤ x) : 0 ≤ roundHalfEven x := by
  have hf : 0 ≤ ⌊x⌋ := Int.floor_nonneg.mpr hx
  unfold roundHalfEven
  dsimp only
  split_ifs <;> omega

theorem roundHalfEven_of_lt (x : ℚ) (f : Int) (h1 : (f : ℚ) ≤ x) (h2 : x < (f : ℚ) + 1 / 2) :
    roundHalfEven x = f := by
  have hf : ⌊x⌋ = f := by
    rw [Int.floor_eq_iff]
    constructor <;> linarith
  unfold roundHalfEven
  dsimp only
  rw [hf, if_pos (by linarith)]

theorem roundHalfEven_intCast (k : Int) : roundHalfEven (k : ℚ) = k :=
  roundHalfEven_of_lt _ k le_rfl (by linarith)

theorem log_two_eq (x : ℚ) (e : Int) (hx : 0 < x) (h1 : (2 : ℚ) ^ e ≤ x)
    (h2 : x < (2 : ℚ) ^ (e + 1)) : Int.log 2 x = e := by
  have a := (Int.zpow_le_iff_le_log (b := 2) (by norm_num) (x := e) hx).mp (by simpa using h1)
  have b := (Int.lt_zpow_iff_log_lt (b := 2) (by norm_num) (x := e + 1) hx).mp (by simpa using h2)
  omega

theorem two_zpow_log_le (x : ℚ) (hx : 0 < x) : (2 : ℚ) ^ Int.log 2 x ≤ x := by
  simpa using Int.zpow_log_le_self (b := 2) (by norm_num) hx

theorem ulp_eq (e : Int) : (2 : ℚ) ^ (e - 52) = (2 : ℚ) ^ e / 4503599627370496 := by
  rw [zpow_sub₀ (by norm_num : (2 : ℚ) ≠ 0)]
  norm_num

theorem ulp_pos (e : Int) : (0 : ℚ) < (2 : ℚ) ^ (e - 52) := by positivity

/-- The double nearest to a positive `x` is within `x / 2 ^ 53` of it. -/
theorem toDouble_error (x : ℚ) (hx : 0 ≤ x) :
    |toDouble x - x| ≤ x / 9007199254740992 := by
  by_cases h0 : x = 0
  · subst h0
    simp [toDouble]
  · have hpos : 0 < x := lt_of_le_of_ne hx (Ne.symm h0)
    unfold toDouble
    rw [if_neg h0, abs_of_pos hpos]
    dsimp only
    have hu := ulp_pos (Int.log 2 x)
    have hr := roundHalfEven_spec (x / (2 : ℚ) ^ (Int.log 2 x - 52))
    have hle := two_zpow_log_le x hpos
    have hue := ulp_eq (Int.log 2 x)
    have e1 : x = x / (2 : ℚ) ^ (Int.log 2 x - 52) * (2 : ℚ) ^ (Int.log 2 x - 52) := by
      field_simp
    have hulp : (2 : ℚ) ^ (Int.log 2 x - 52) ≤ x / 4503599627370496 := by
      rw [hue]
      exact div_le_div_of_nonneg_right hle (by norm_num)
    rw [abs_le]
    constructor
    · nlinarith [hr.1, hr.2]
    · nlinarith [hr.1, hr.2]

theorem toDouble_nonneg (x : ℚ) (hx : 0 ≤ x) : 0 ≤ toDouble x := by
  unfold toDouble
  split_ifs with h0
  · exact le_refl 0
  · dsimp only
    have hu := ulp_pos (Int.log 2 |x|)
    have hq : 0 ≤ x / (2 : ℚ) ^ (Int.log 2 |x| - 52) := div_nonneg hx hu.le
    have hr : (0 : ℚ) ≤ (roundHalfEven (x / (2 : ℚ) ^ (Int.log 2 |x| - 52)) : ℚ) := by
      exact_mod_cast roundHalfEven_nonneg _ hq
    positivity

/-- For a positive `x` below `2 ^ 53`, a whole number is a whole multiple of
the unit in the last place of `x`. -/
theorem div_ulp_eq (x : ℚ) (hx : 0 < x) (hlt : x < 9007199254740992) (B : Int) :
    ∃ N : Int, (B : ℚ) / (2 : ℚ) ^ (Int.log 2 x - 52) = (N : ℚ) := by
  have hlog : Int.log 2 x < 53 := by
    apply (Int.lt_zpow_iff_log_lt (b := 2) (by norm_num) hx).mp
    norm_num
    exact hlt
  refine ⟨B * 2 ^ (52 - Int.log 2 x).toNat, ?_⟩
  have hk : ((52 - Int.log 2 x).toNat : Int) = 52 - Int.log 2 x :=
    Int.toNat_of_nonneg (by omega)
  have e : (2 : ℚ) ^ (Int.log 2 x - 52) = ((2 : ℚ) ^ ((52 - Int.log 2 x).toNat : Int))⁻¹ := by
    rw [hk, ← zpow_neg]
    congr 1
    ring
  rw [e, zpow_natCast]
  push_cast
  rw [div_inv_eq_mul]

theorem toDouble_le (x : ℚ) (B : Int) (hx : 0 ≤ x) (hxB : x ≤ B)
    (hB : (B : ℚ) < 9007199254740992) : toDouble x ≤ B := by
  by_cases h0 : x = 0
  · subst h0
    simpa [toDouble] using hxB
  · have hpos : 0 < x := lt_of_le_of_ne hx (Ne.symm h0)
    obtain ⟨N, hN⟩ := div_ulp_eq x hpos (lt_of_le_of_lt hxB hB) B
    unfold toDouble
    rw [if_neg h0, abs_of_pos hpos]
    dsimp only
    have hu := ulp_pos (Int.log 2 x)
    have hq : x / (2 : ℚ) ^ (Int.log 2 x - 52) ≤ (N : ℚ) := by
      rw [← hN]
      exact div_le_div_of_nonneg_right hxB hu.le
    have hr : (roundHalfEven (x / (2 : ℚ) ^ (Int.log 2 x - 52)) : ℚ) ≤ (N : ℚ) := by
      exact_mod_cast roundHalfEven_le _ N hq
    have hBN : (B : ℚ) = (N : ℚ) * (2 : ℚ) ^ (Int.log 2 x - 52) := by
      rw [← hN]
      field_simp
    rw [hBN]
    exact mul_le_mul_of_nonneg_right hr hu.le

/-- A whole number below `2 ^ 53` is a double. -/
theorem toDouble_intCast (B : Int) (hB0 : 0 ≤ B) (hB : (B : ℚ) < 9007199254740992) :
    toDouble (B : ℚ) = B := by
  by_cases h0 : (B : ℚ) = 0
  · rw [h0]
    simp [toDouble]
  · have hpos : (0 : ℚ) < (B : ℚ) := lt_of_le_of_ne (by exact_mod_cast hB0) (Ne.symm h0)
    obtain ⟨N, hN⟩ := div_ulp_eq (B : ℚ) hpos hB B
    unfold toDouble
    rw [if_neg h0, abs_of_pos hpos]
    dsimp only
    have hu := ulp_pos (Int.log 2 (B : ℚ))
    rw [hN, roundHalfEven_intCast, ← hN]
    field_simp

theorem toDouble_zero : toDouble 0 = 0 := by
  simp [toDouble]

theorem toDouble_one : toDouble 1 = 1 := by
  have := toDouble_intCast 1 (by norm_num) (by norm_num)
  simpa using this

theorem toDouble_hundred : toDouble 100 = 100 := by
  have := toDouble_intCast 100 (by norm_num) (by norm_num)
  simpa using this

/-- The double nearest to `x`, from its binade and its rounded significand. -/
theorem toDouble_eq (x : ℚ) (e m : Int) (hx : 0 < x) (h1 : (2 : ℚ) ^ e ≤ x)
    (h2 : x < (2 : ℚ) ^ (e + 1)) (hm : roundHalfEven (x / (2 : ℚ) ^ (e - 52)) = m) :
    toDouble x = (m : ℚ) * (2 : ℚ) ^ (e - 52) := by
  unfold toDouble
  rw [if_neg hx.ne', abs_of_pos hx, log_two_eq x e hx h1 h2]
  dsimp only
  rw [hm]

theorem toDouble_23_40 : toDouble (23 / 40) = 5179139571476070 / 9007199254740992 := by
  rw [toDouble_eq (23 / 40) (-1) 5179139571476070 (by norm_num) (by norm_num) (by norm_num)]
  · norm_num
  · apply roundHalfEven_of_lt
    · norm_num
    · norm_num

theorem toDouble_23_40_percent :
    toDouble (toDouble (23 / 40) * 100) = 8092405580431359 / 140737488355328 := by
  rw [toDouble_23_40,
    toDouble_eq _ 5 8092405580431359 (by norm_num) (by norm_num) (by norm_num)]
  · norm_num
  · apply roundHalfEven_of_lt
    · norm_num
    · norm_num

theorem mathRound_23_40 : mathRound (toDouble (toDouble (23 / 40) * 100)) = 57 := by
  rw [toDouble_23_40_percent]
  unfold mathRound
  rw [Int.floor_eq_iff]
  constructor <;> norm_num

/-- The double product `(c / n) * 100` for `c ≤ n`: it lies between 0 and 100
and within `200 / 2 ^ 53` of the exact percentage. -/
theorem percent_double (c n : Nat) (hn : 0 < n) (hc : c ≤ n) :
    0 ≤ toDouble (toDouble ((c : ℚ) / (n : ℚ)) * 100) ∧
    toDouble (toDouble ((c : ℚ) / (n : ℚ)) * 100) ≤ 100 ∧
    |toDouble (toDouble ((c : ℚ) / (n : ℚ)) * 100) - 100 * (c : ℚ) / (n : ℚ)|
      ≤ 200 / 9007199254740992 := by
  have hnq : (0 : ℚ) < (n : ℚ) := by exact_mod_cast hn
  have hx0 : (0 : ℚ) ≤ (c : ℚ) / (n : ℚ) := by positivity
  have hx1 : (c : ℚ) / (n : ℚ) ≤ 1 := by
    rw [div_le_one hnq]
    exact_mod_cast hc
  have hz0 := toDouble_nonneg _ hx0
  have hz1 : toDouble ((c : ℚ) / (n : ℚ)) ≤ ((1 : Int) : ℚ) :=
    toDouble_le _ 1 hx0 (by simpa using hx1) (by norm_num)
  have hze := toDouble_error _ hx0
  have hw0 : (0 : ℚ) ≤ toDouble ((c : ℚ) / (n : ℚ)) * 100 := by positivity
  have hw1 : toDouble ((c : ℚ) / (n : ℚ)) * 100 ≤ ((100 : Int) : ℚ) := by
    push_cast at hz1 ⊢
    linarith
  have hy0 := toDouble_nonneg _ hw0
  have hy1 := toDouble_le _ 100 hw0 hw1 (by norm_num)
  have hye := toDouble_error _ hw0
  push_cast at hy1 hw1 hz1
  refine ⟨hy0, hy1, ?_⟩
  rw [abs_le] at hze hye ⊢
  have e : 100 * (c : ℚ) / (n : ℚ) = (c : ℚ) / (n : ℚ) * 100 := by ring
  rw [e]
  constructor
  · linarith [hze.1, hze.2, hye.1, hye.2]
  · linarith [hze.1, hze.2, hye.1, hye.2]

/-- `Math.round` of the double product at an exact tie `k + 1/2`: `k` or `k + 1`. -/
theorem percent_round_tie (c n : Nat) (hn : 0 < n) (hc : c ≤ n) (k : Int)
    (hk : 100 * (c : ℚ) / (n : ℚ) = (k : ℚ) + 1 / 2) :
    mathRound (toDouble (toDouble ((c : ℚ) / (n : ℚ)) * 100)) = k ∨
    mathRound (toDouble (toDouble ((c : ℚ) / (n : ℚ)) * 100)) = k + 1 := by
  obtain ⟨_, _, he⟩ := percent_double c n hn hc
  have hs := mathRound_spec (toDouble (toDouble ((c : ℚ) / (n : ℚ)) * 100))
  rw [abs_le, hk] at he
  have h1 : ((mathRound (toDouble (toDouble ((c : ℚ) / (n : ℚ)) * 100)) : Int) : ℚ)
      < (k : ℚ) + 2 := by
    linarith [he.1, he.2, hs.1, hs.2]
  have h2 : (k : ℚ) - 1
      < ((mathRound (toDouble (toDouble ((c : ℚ) / (n : ℚ)) * 100)) : Int) : ℚ) := by
    linarith [he.1, he.2, hs.1, hs.2]
  have h1i : mathRound (toDouble (toDouble ((c : ℚ) / (n : ℚ)) * 100)) < k + 2 := by
    exact_mod_cast h1
  have h2i : k - 1 < mathRound (toDouble (toDouble ((c : ℚ) / (n : ℚ)) * 100)) := by
    exact_mod_cast h2
  omega

/-- Away from the ties and for at most `10 ^ 11` samples, `Math.round` of the
double product is the nearest integer of the exact percentage. -/
theorem percent_round_exact (c n : Nat) (hn : 0 < n) (hc : c ≤ n) (hN : n ≤ 100000000000)
    (hk : ∀ k : Int, 100 * (c : ℚ) / (n : ℚ) ≠ (k : ℚ) + 1 / 2) :
    ((mathRound (toDouble (toDouble ((c : ℚ) / (n : ℚ)) * 100)) : Int) : ℚ) - 1 / 2
        ≤ 100 * (c : ℚ) / (n : ℚ) ∧
      100 * (c : ℚ) / (n : ℚ)
        < ((mathRound (toDouble (toDouble ((c : ℚ) / (n : ℚ)) * 100)) : Int) : ℚ) + 1 / 2 := by
  obtain ⟨_, _, he⟩ := percent_double c n hn hc
  have hs := mathRound_spec (toDouble (toDouble ((c : ℚ) / (n : ℚ)) * 100))
  rw [abs_le] at he
  generalize mathRound (toDouble (toDouble ((c : ℚ) / (n : ℚ)) * 100)) = r at hs ⊢
  generalize toDouble (toDouble ((c : ℚ) / (n : ℚ)) * 100) = y at hs he
  have hnq : (0 : ℚ) < (n : ℚ) := by exact_mod_cast hn
  have hNq : (n : ℚ) ≤ 100000000000 := by exact_mod_cast hN
  have hX : 100 * (c : ℚ) / (n : ℚ) * (2 * (n : ℚ)) = 200 * (c : ℚ) := by
    field_simp
    ring
  constructor
  · by_contra hlt
    push_neg at hlt
    have hpos : (200 : ℚ) * (c : ℚ) < (2 * (r : ℚ) - 1) * (n : ℚ) := by
      have := mul_lt_mul_of_pos_right hlt (by positivity : (0 : ℚ) < 2 * (n : ℚ))
      rw [hX] at this
      linarith
    have hposi : (200 : Int) * (c : Int) < (2 * r - 1) * (n : Int) := by exact_mod_cast hpos
    have hge : (200 : Int) * (c : Int) + 1 ≤ (2 * r - 1) * (n : Int) := by omega
    have hgeq : (200 : ℚ) * (c : ℚ) + 1 ≤ (2 * (r : ℚ) - 1) * (n : ℚ) := by exact_mod_cast hge
    have hgap : 100 * (c : ℚ) / (n : ℚ) * (2 * (n : ℚ)) + 1
        ≤ ((r : ℚ) - 1 / 2) * (2 * (n : ℚ)) := by
      rw [hX]
      linarith
    have hclose : ((r : ℚ) - 1 / 2 - 100 * (c : ℚ) / (n : ℚ)) * (2 * (n : ℚ))
        ≤ 200 / 9007199254740992 * (2 * 100000000000) := by
      apply mul_le_mul
      · linarith [he.1, he.2, hs.1, hs.2]
      · linarith
      · positivity
      · norm_num
    norm_num at hclose
    linarith
  · by_contra hge
    push_neg at hge
    have hne := hk r
    have hgt : (r : ℚ) + 1 / 2 < 100 * (c : ℚ) / (n : ℚ) := lt_of_le_of_ne hge (Ne.symm hne)
    have hpos : (2 * (r : ℚ) + 1) * (n : ℚ) < (200 : ℚ) * (c : ℚ) := by
      have := mul_lt_mul_of_pos_right hgt (by positivity : (0 : ℚ) < 2 * (n : ℚ))
      rw [hX] at this
      linarith
    have hposi : (2 * r + 1) * (n : Int) < (200 : Int) * (c : Int) := by exact_mod_cast hpos
    have hge1 : (2 * r + 1) * (n : Int) + 1 ≤ (200 : Int) * (c : Int) := by omega
    have hgeq : (2 * (r : ℚ) + 1) * (n : ℚ) + 1 ≤ (200 : ℚ) * (c : ℚ) := by exact_mod_cast hge1
    have hclose : (100 * (c : ℚ) / (n : ℚ) - ((r : ℚ) + 1 / 2)) * (2 * (n : ℚ))
        ≤ 200 / 9007199254740992 * (2 * 100000000000) := by
      apply mul_le_mul
      · linarith [he.1, he.2, hs.1, hs.2]
      · linarith
      · positivity
      · norm_num
    have hexp : (100 * (c : ℚ) / (n : ℚ) - ((r : ℚ) + 1 / 2)) * (2 * (n : ℚ))
        = 200 * (c : ℚ) - (2 * (r : ℚ) + 1) * (n : ℚ) := by
      rw [sub_mul, hX]
      ring
    rw [hexp] at hclose
    norm_num at hclose
    linarith

/-- Closed form of the statistics handler. -/
theorem statistics_eq (h : List CycleRecord) :
    statistics h =
      { totalCycles := h.length
        averageCycleLength := (mathRound (meanOf (cycleLengthSamples h) * 10) : ℚ) / 10
        averagePeriodLength := (mathRound (meanOf (periodLengthSamples h) * 10) : ℚ) / 10
        regularity :=
          mathRound
            (if (cycleLengthSamples h).length > 0 then
              toDouble (toDouble
                ((((cycleLengthSamples h).countP
                    fun x : Int => decide (|(x : ℚ) - meanOf (cycleLengthSamples h)| ≤ 2) : Nat) : ℚ)
                  / ((cycleLengthSamples h).length : ℚ)) * 100)
            else 0) } := by
  by_cases hlen : h.length = 0
  · have hnil : h = [] := List.length_eq_zero.mp hlen
    subst hnil
    simp [statistics, meanOf, cycleLengthSamples, periodLengthSamples, mathRound_zero]
  · unfold statistics
    rw [if_neg hlen]
    simp only [foldl_add_eq_sum, meanOf, List.countP_eq_length_filter]
    by_cases hs : (cycleLengthSamples h).length > 0
    · simp only [hs, if_true]
    · simp only [hs, if_false]

theorem mathRound_intCast (k : Int) : mathRound (k : ℚ) = k :=
  mathRound_unique _ k (by linarith) (by linarith)

theorem cycleLengthSamples_january :
    cycleLengthSamples [cycleJan01, cycleJan29] = [28] := by
  simp only [cycleLengthSamples, getTime_sub_div]
  decide

theorem statistics_january :
    statistics [cycleJan01, cycleJan29] =
      { totalCycles := 2, averageCycleLength := 28, averagePeriodLength := 0, regularity := 100 } := by
  have hp : periodLengthSamples [cycleJan01, cycleJan29] = [] := by
    simp [periodLengthSamples, cycleJan01, cycleJan29]
  have hm : meanOf [28] = 28 := by norm_num [meanOf]
  have h280 : mathRound 280 = 280 := by
    have := mathRound_intCast 280
    norm_num at this ⊢
    exact this
  have h100 : mathRound 100 = 100 := by
    have := mathRound_intCast 100
    norm_num at this ⊢
    exact this
  rw [statistics_eq, cycleLengthSamples_january, hp, hm]
  have hm0 : meanOf [] = 0 := by simp [meanOf]
  rw [hm0]
  norm_num [h280, h100, mathRound_zero, toDouble_one, toDouble_hundred]

theorem mathRound_nonneg (x : ℚ) (hx : 0 ≤ x) : 0 ≤ mathRound x := by
  unfold mathRound
  exact Int.floor_nonneg.mpr (by linarith)

theorem mathRound_le_of_le (x : ℚ) (k : Int) (hx : x ≤ k) : mathRound x ≤ k := by
  unfold mathRound
  have : ⌊x + 1 / 2⌋ < k + 1 := by
    rw [Int.floor_lt]
    push_cast
    linarith
  omega

theorem specPeriodSpans_append_open (pre post : List CycleRecord) (c : CycleRecord)
    (he : c.endDate = none) :
    specPeriodSpans (pre ++ c :: post) = specPeriodSpans (pre ++ post) := by
  simp [specPeriodSpans, List.filterMap_append, List.filterMap_cons, he]

theorem specPeriodSpans_length (h : List CycleRecord) :
    (specPeriodSpans h).length = h.countP (fun c => c.endDate.isSome) := by
  induction h with
  | nil => rfl
  | cons c t ih =>
    unfold specPeriodSpans at ih ⊢
    cases he : c.endDate with
    | none => simp [List.filterMap_cons, he, ih]
    | some e => simp [List.filterMap_cons, he, ih]

theorem specPeriodSpans_eq_nil (h : List CycleRecord) (hn : ∀ c ∈ h, c.endDate = none) :
    specPeriodSpans h = [] := by
  unfold specPeriodSpans
  rw [List.filterMap_eq_nil_iff]
  intro c hc
  simp [hn c hc]

theorem calculatePredictions_singleCycle :
    calculatePredictions utc [singleCycle] = Completion.returns (some singleCyclePredictions) := by
  rw [calculatePredictions_eq _ _ (by simp)]; decide

theorem mathRound_nonzeroMean_singleCycle :
    mathRound (nonzeroMeanLength [singleCycle]) = 5 := by
  rw [← rounded_eq_mathRound _ (by simp)]; decide

theorem sortCycles_ascending (l : List CycleRecord) : Ascending (sortCycles l) := by
  haveI : IsTotal CycleRecord (fun a b => getTime a.startDate - getTime b.startDate ≤ 0) :=
    ⟨fun a b => by
      have := le_total (getTime a.startDate) (getTime b.startDate)
      omega⟩
  haveI : IsTrans CycleRecord (fun a b => getTime a.startDate - getTime b.startDate ≤ 0) :=
    ⟨fun a b c hab hbc => by
      have hab1 : getTime a.startDate - getTime b.startDate ≤ 0 := hab
      have hbc1 : getTime b.startDate - getTime c.startDate ≤ 0 := hbc
      show getTime a.startDate - getTime c.startDate ≤ 0
      omega⟩
  have hs := List.sorted_insertionSort
    (fun a b : CycleRecord => getTime a.startDate - getTime b.startDate ≤ 0) l
  unfold Ascending sortCycles
  refine List.Pairwise.imp ?_ hs
  intro a b hab
  have hab1 : getTime a.startDate - getTime b.startDate ≤ 0 := hab
  have : getTime a.startDate ≤ getTime b.startDate := by omega
  exact (getTime_le_iff _ _).mp this

theorem postCycles_ascending (newId : String) (cycleLength : Int) (body : PostBody)
    (l : List CycleRecord) (hl : Ascending l) :
    Ascending (postCycles newId cycleLength body l) := by
  unfold postCycles
  cases body.startDate with
  | none => exact hl
  | some s => exact sortCycles_ascending _

theorem deleteCycle_ascending (id : String) (l : List CycleRecord) (hl : Ascending l) :
    Ascending (deleteCycle id l) := by
  unfold deleteCycle
  dsimp only
  split_ifs
  · exact hl
  · exact List.Sorted.filter _ hl

theorem map_startDate_modify (f : CycleRecord → CycleRecord)
    (hf : ∀ c, (f c).startDate = c.startDate) (l : List CycleRecord) (i : Nat) :
    (l.modify f i).map (fun c => c.startDate) = l.map (fun c => c.startDate) := by
  induction l generalizing i with
  | nil => cases i <;> simp [List.modify]
  | cons x t ih =>
    cases i with
    | zero => simp [List.modify, hf]
    | succ j =>
      have := ih j
      simp only [List.modify] at this ⊢
      simpa using this

theorem ascending_iff_map (l : List CycleRecord) :
    Ascending l ↔ (l.map fun c => c.startDate).Sorted (fun a b : Int => a ≤ b) := by
  unfold Ascending List.Sorted
  rw [List.pairwise_map]

/-- An update that carries no `startDate` keeps the order of the list. -/
theorem putCycle_ascending (id : String) (body : PutBody) (l : List CycleRecord)
    (hb : body.startDate = none) (hl : Ascending l) : Ascending (putCycle id body l) := by
  unfold putCycle
  dsimp only
  split_ifs
  · exact hl
  · rw [ascending_iff_map] at hl ⊢
    rw [map_startDate_modify _ _ l _]
    · exact hl
    · intro c
      simp [applyPut, hb]

/-- Every operation other than an update of `startDate` keeps the stored list
ascending. -/
theorem runCycles_ascending (ops : List CycleOp)
    (hops : ∀ id body, CycleOp.put id body ∈ ops → body.startDate = none) :
    Ascending (runCycles ops) := by
  have key : ∀ (os : List CycleOp) (l : List CycleRecord), Ascending l →
      (∀ id body, CycleOp.put id body ∈ os → body.startDate = none) →
      Ascending (os.foldl stepCycles l) := by
    intro os
    induction os with
    | nil => intro l hl _; exact hl
    | cons o os ih =>
      intro l hl ho
      apply ih
      · cases o with
        | post newId cycleLength body => exact postCycles_ascending _ _ _ _ hl
        | put id body => exact putCycle_ascending _ _ _ (ho id body (by simp)) hl
        | delete id => exact deleteCycle_ascending _ _ hl
      · intro id body hmem
        exact ho id body (List.mem_cons_of_mem _ hmem)
  exact key ops [] List.sorted_nil hops

theorem cycleLengthSamples_sum (a : CycleRecord) (t : List CycleRecord) :
    (cycleLengthSamples (a :: t)).sum
      = ((a :: t).getLast (List.cons_ne_nil a t)).startDate - a.startDate := by
  induction t generalizing a with
  | nil => simp [cycleLengthSamples]
  | cons b r ih =>
    have hb := ih b
    simp only [cycleLengthSamples, List.sum_cons, getTime_sub_div, List.getLast_cons_cons] at hb ⊢
    rw [hb]
    ring

/-- The unrounded mean of the samples, from the first and the last array
element. -/
theorem meanOf_cycleLengthSamples (h : List CycleRecord) (hn : 2 ≤ h.length)
    (first last : CycleRecord) (hf : h.head? = some first) (hl : h.getLast? = some last) :
    meanOf (cycleLengthSamples h)
      = ((last.startDate - first.startDate : Int) : ℚ) / ((h.length : ℚ) - 1) := by
  cases h with
  | nil => simp at hn
  | cons a t =>
    have hfa : a = first := by simpa using hf
    subst hfa
    have hla : (a :: t).getLast (List.cons_ne_nil a t) = last := by
      rw [List.getLast?_eq_getLast _ (List.cons_ne_nil a t)] at hl
      exact Option.some.inj hl
    have hlen : (cycleLengthSamples (a :: t)).length = (a :: t).length - 1 :=
      cycleLengthSamples_length _
    have hpos : (cycleLengthSamples (a :: t)).length > 0 := by
      rw [hlen]
      omega
    unfold meanOf
    rw [if_pos hpos, cycleLengthSamples_sum, hla, hlen]
    have h1 : 1 ≤ (a :: t).length := by omega
    rw [Nat.cast_sub h1]
    simp

theorem cycleLengthSamples_irregular :
    cycleLengthSamples [cycleJan01, cycleJan11, cycleFeb26] = [10, 46] := by
  simp only [cycleLengthSamples, getTime_sub_div]
  decide

theorem cycleLengthSamples_regular :
    cycleLengthSamples [cycleJan01, cycleJan29, cycleFeb26] = [28, 28] := by
  simp only [cycleLengthSamples, getTime_sub_div]
  decide

theorem cycleLengthSamples_openCyclesFrom (start : Int) (gaps : List Int) :
    cycleLengthSamples (openCyclesFrom start gaps) = gaps := by
  induction gaps generalizing start with
  | nil => rfl
  | cons g gs ih =>
    have hg := ih (start + g)
    cases gs with
    | nil => simp [openCyclesFrom, cycleLengthSamples, getTime_sub_div]
    | cons g1 gs1 =>
      simp only [openCyclesFrom, cycleLengthSamples, getTime_sub_div] at hg ⊢
      rw [hg]
      simp

theorem openCyclesFrom_length (start : Int) (gaps : List Int) :
    (openCyclesFrom start gaps).length = gaps.length + 1 := by
  induction gaps generalizing start with
  | nil => rfl
  | cons g gs ih => simp [openCyclesFrom, ih]

theorem regularity_eq (h : List CycleRecord) :
    (statistics h).regularity =
      mathRound
        (if (cycleLengthSamples h).length > 0 then
          toDouble (toDouble ((regularCount h : ℚ) / ((cycleLengthSamples h).length : ℚ)) * 100)
        else 0) := by
  rw [statistics_eq]
  rfl

theorem regularCount_le (h : List CycleRecord) :
    regularCount h ≤ (cycleLengthSamples h).length :=
  List.countP_le_length _

theorem meanOf_gaps40 : meanOf gaps40 = 113 / 4 := by
  have hl : gaps40.length = 40 := by decide
  have hsum : gaps40.sum = 1130 := by decide
  unfold meanOf
  rw [hl, hsum]
  norm_num

theorem regularCount_history41 : regularCount history41 = 23 := by
  unfold regularCount history41
  rw [cycleLengthSamples_openCyclesFrom, meanOf_gaps40]
  have h28 : |((28 : Int) : ℚ) - 113 / 4| ≤ 2 := by
    rw [abs_le]; norm_num
  have h18 : ¬ |((18 : Int) : ℚ) - 113 / 4| ≤ 2 := by
    rw [abs_le]; norm_num
  have h38 : ¬ |((38 : Int) : ℚ) - 113 / 4| ≤ 2 := by
    rw [abs_le]; norm_num
  unfold gaps40
  rw [List.countP_append, List.countP_append, List.countP_replicate, List.countP_replicate,
    List.countP_replicate]
  simp only [h28, h18, h38, decide_True, decide_False, if_true]
  rfl

theorem regularPercent_january : regularPercent [cycleJan01, cycleJan29] = 100 := by
  have hc : regularCount [cycleJan01, cycleJan29] = 1 := by
    have hm : meanOf [28] = 28 := by norm_num [meanOf]
    unfold regularCount
    rw [cycleLengthSamples_january, hm]
    norm_num [List.countP_cons]
  unfold regularPercent
  rw [hc, cycleLengthSamples_january]
  norm_num

theorem half_integer_ne_hundred (k : Int) : (100 : ℚ) ≠ (k : ℚ) + 1 / 2 := by
  intro hk
  have h2 : (200 : ℚ) = 2 * (k : ℚ) + 1 := by linarith
  have h3 : (200 : Int) = 2 * k + 1 := by exact_mod_cast h2
  omega

theorem regularity_irregular :
    (statistics [cycleJan01, cycleJan11, cycleFeb26]).regularity = 0 := by
  have hm : meanOf [10, 46] = 28 := by norm_num [meanOf]
  rw [statistics_eq, cycleLengthSamples_irregular, hm]
  have h1 : ¬ |(10 : ℚ) - 28| ≤ 2 := by
    rw [abs_le]; norm_num
  have h2 : ¬ |(46 : ℚ) - 28| ≤ 2 := by
    rw [abs_le]; norm_num
  simp [List.countP_cons, h1, h2, mathRound_zero, toDouble_zero]

theorem regularity_regular :
    (statistics [cycleJan01, cycleJan29, cycleFeb26]).regularity = 100 := by
  have hm : meanOf [28, 28] = 28 := by norm_num [meanOf]
  have h100 : mathRound 100 = 100 := by
    have := mathRound_intCast 100
    norm_num at this ⊢
    exact this
  rw [statistics_eq, cycleLengthSamples_regular, hm]
  norm_num [List.countP_cons, h100, toDouble_one, toDouble_hundred]

/-! ## The claims -/

/-- C1, as stated, fails in two ways.  An open cycle whose `customCycleLength`
is 0 has the effective length 0 in the words of the claim, and the code
averages it as 28 (`customCycleLength || 28`).  On a server in the zone
America/New_York the open cycle of 2024-03-01 with length 28 gets
`nextPeriod` 2024-03-28, one day before 2024-03-01 + 28 days. -/
theorem C1_counterexample_zeroLength :
    specMeanLength [cycleWithLength 0] = 0 ∧
    calculatePredictions utc [cycleWithLength 0]
      = Completion.returns (some (predictionAt (epochDay 2024 1 29) 28)) ∧
    ¬ ((28 : ℚ) - 1 / 2 ≤ specMeanLength [cycleWithLength 0]) ∧
    calculatePredictions newYork2024 [cycleMar01] = Completion.returns (some
      { nextPeriod := epochDay 2024 3 28
        ovulation := epochDay 2024 3 14
        fertileWindow := { start := epochDay 2024 3 10, end_ := epochDay 2024 3 15 }
        avgCycleLength := 28 }) ∧
    cycleMar01.startDate + 28 = epochDay 2024 3 29 ∧
    epochDay 2024 3 28 ≠ epochDay 2024 3 29 := by
  have hm : specMeanLength [cycleWithLength 0] = 0 := by
    simp [specMeanLength, specEffectiveLength, cycleWithLength]
  refine ⟨hm, ?_, ?_, ?_, by decide, by decide⟩
  · rw [calculatePredictions_eq _ _ (by simp)]; decide
  · rw [hm]; norm_num
  · rw [calculatePredictions_eq _ _ (by simp)]; decide

/-- C1, amended: for every non-empty history, a prediction returned by
`calculatePredictions` has `avgCycleLength` equal to the mean of the effective
lengths rounded to the nearest integer, a tie going up, where an open record
counts for its `customCycleLength` if present and not zero and for 28
otherwise.  On a server whose zone has a fixed offset from UTC, when the
start of the last record and the dates from 19 days before the next period to
the next period lie within 100,000,000 days of 1970-01-01, such a prediction is
returned and its `nextPeriod` is the `startDate` of the last record plus that
rounded number of days. -/
theorem C1_avgCycleLength_nextPeriod_amended (h : List CycleRecord) (hne : h ≠ []) :
    (∀ (tz : TimeZone) (p : Predictions),
      calculatePredictions tz h = Completion.returns (some p) →
        (p.avgCycleLength : ℚ) - 1 / 2 ≤ nonzeroMeanLength h ∧
        nonzeroMeanLength h < (p.avgCycleLength : ℚ) + 1 / 2) ∧
    (∀ offset : Int,
      -maxDay ≤ (h.getLast hne).startDate → (h.getLast hne).startDate ≤ maxDay →
      -maxDay ≤ (h.getLast hne).startDate + mathRound (nonzeroMeanLength h) - 19 →
      (h.getLast hne).startDate + mathRound (nonzeroMeanLength h) ≤ maxDay →
      ∃ p, calculatePredictions (fixedOffset offset) h = Completion.returns (some p) ∧
        (p.avgCycleLength : ℚ) - 1 / 2 ≤ nonzeroMeanLength h ∧
        nonzeroMeanLength h < (p.avgCycleLength : ℚ) + 1 / 2 ∧
        p.nextPeriod = (h.getLast hne).startDate + p.avgCycleLength) := by
  have hs := mathRound_spec (nonzeroMeanLength h)
  constructor
  · intro tz p hp
    have ha := returns_avgCycleLength tz h p hp
    rw [rounded_eq_mathRound h hne] at ha
    rw [ha]
    exact hs
  · intro offset h1 h2 h3 h4
    unfold maxDay at h1 h2 h3 h4
    rw [calculatePredictions_fixedOffset offset h hne, if_pos ⟨⟨h1, h2⟩, h3, h4⟩]
    exact ⟨_, rfl, hs.1, hs.2, rfl⟩

/-- C1, amended, on the single cycle 2024-01-01 .. 2024-01-05 in the zone UTC:
`avgCycleLength` is 5 and `nextPeriod` is 2024-01-06. -/
theorem C1_witness_singleCycle :
    (∃ p, calculatePredictions utc [singleCycle] = Completion.returns (some p) ∧
      (p.avgCycleLength : ℚ) - 1 / 2 ≤ nonzeroMeanLength [singleCycle] ∧
      nonzeroMeanLength [singleCycle] < (p.avgCycleLength : ℚ) + 1 / 2 ∧
      p.nextPeriod = ([singleCycle].getLast (by simp)).startDate + p.avgCycleLength) ∧
    calculatePredictions utc [singleCycle] = Completion.returns (some
      { nextPeriod := epochDay 2024 1 6
        ovulation := epochDay 2023 12 23
        fertileWindow := { start := epochDay 2023 12 18, end_ := epochDay 2023 12 24 }
        avgCycleLength := 5 }) :=
  ⟨(C1_avgCycleLength_nextPeriod_amended [singleCycle] (by simp)).2 0
      (by decide) (by decide)
      (by rw [mathRound_nonzeroMean_singleCycle]; decide)
      (by rw [mathRound_nonzeroMean_singleCycle]; decide),
   calculatePredictions_singleCycle⟩

/-- C2, at the failing inputs.  On a server in the zone Europe/Paris the open
cycle of 2024-03-10 with length 28 gets `nextPeriod` 2024-04-06 and `ovulation`
2024-03-24, 13 days before the next period.  On a server in the zone
America/New_York the open cycle of 2024-03-01 gets `ovulation` 2024-03-14 and
the fertile window 2024-03-10 .. 2024-03-15, which starts 4 days before
ovulation and spans 5 days.  In the zone UTC an open cycle of declared length
1,000,000,000 makes the call throw a `RangeError` instead of returning a
prediction. -/
theorem C2_local_dates_break_offsets :
    calculatePredictions paris2024 [cycleMar10] = Completion.returns (some
      { nextPeriod := epochDay 2024 4 6
        ovulation := epochDay 2024 3 24
        fertileWindow := { start := epochDay 2024 3 19, end_ := epochDay 2024 3 25 }
        avgCycleLength := 28 }) ∧
    epochDay 2024 4 6 - epochDay 2024 3 24 = 13 ∧
    calculatePredictions newYork2024 [cycleMar01] = Completion.returns (some
      { nextPeriod := epochDay 2024 3 28
        ovulation := epochDay 2024 3 14
        fertileWindow := { start := epochDay 2024 3 10, end_ := epochDay 2024 3 15 }
        avgCycleLength := 28 }) ∧
    epochDay 2024 3 14 - epochDay 2024 3 10 = 4 ∧
    epochDay 2024 3 15 - epochDay 2024 3 10 = 5 ∧
    calculatePredictions utc [cycleWithLength 1000000000] = Completion.throwsRangeError := by
  refine ⟨?_, by decide, ?_, by decide, by decide, ?_⟩
  · rw [calculatePredictions_eq _ _ (by simp)]; decide
  · rw [calculatePredictions_eq _ _ (by simp)]; decide
  · rw [calculatePredictions_eq _ _ (by simp)]; decide

/-- C3: on the empty history `calculatePredictions` returns null and the
statistics are all zero; `calculatePredictions` returns null for no other
history. -/
theorem C3_empty_history :
    (∀ tz : TimeZone, calculatePredictions tz [] = Completion.returns none) ∧
    statistics [] =
      { totalCycles := 0, averageCycleLength := 0, averagePeriodLength := 0, regularity := 0 } ∧
    ∀ (tz : TimeZone) (h : List CycleRecord),
      calculatePredictions tz h = Completion.returns none ↔ h = [] :=
  ⟨fun _ => rfl, rfl, calculatePredictions_eq_none_iff⟩

/-- C4: `calculatePregnancyRisk` answers `unknown` exactly for null
predictions; for non-null predictions it answers `low` exactly outside the
inclusive fertile window, `high` exactly inside the window at most one day
from ovulation, and `medium` exactly on the other dates of the window.  With
ovulation on 2024-01-20 (the prediction for an open cycle of 2024-01-06 in a
zone of fixed offset) that date is `high`, and the dates ten days before the
window start and ten days after the window end are `low`. -/
theorem C4_pregnancyRisk :
    (∀ (d : Int) (preds : Option Predictions),
      calculatePregnancyRisk d preds = Risk.unknown ↔ preds = none) ∧
    (∀ (d : Int) (p : Predictions),
      (calculatePregnancyRisk d (some p) = Risk.low ↔
        (d < p.fertileWindow.start ∨ p.fertileWindow.end_ < d)) ∧
      (calculatePregnancyRisk d (some p) = Risk.high ↔
        (p.fertileWindow.start ≤ d ∧ d ≤ p.fertileWindow.end_ ∧ |d - p.ovulation| ≤ 1)) ∧
      (calculatePregnancyRisk d (some p) = Risk.medium ↔
        (p.fertileWindow.start ≤ d ∧ d ≤ p.fertileWindow.end_ ∧ ¬ |d - p.ovulation| ≤ 1))) ∧
    (∀ offset : Int, calculatePredictions (fixedOffset offset)
      [{ id := "c1", startDate := epochDay 2024 1 6, endDate := none, customCycleLength := some 28 }]
      = Completion.returns (some januaryPredictions)) ∧
    calculatePregnancyRisk (epochDay 2024 1 20) (some januaryPredictions) = Risk.high ∧
    calculatePregnancyRisk (epochDay 2024 1 5) (some januaryPredictions) = Risk.low ∧
    calculatePregnancyRisk (epochDay 2024 1 31) (some januaryPredictions) = Risk.low := by
  refine ⟨?_, ?_, ?_, ?_, ?_, ?_⟩
  · intro d preds
    cases preds with
    | none => simp [calculatePregnancyRisk]
    | some p =>
      rw [calculatePregnancyRisk_some]
      split_ifs <;> simp
  · intro d p
    rw [calculatePregnancyRisk_some]
    by_cases hw : p.fertileWindow.start ≤ d ∧ d ≤ p.fertileWindow.end_
    · by_cases hd : |d - p.ovulation| ≤ 1
      · rw [if_pos hw, if_pos hd]
        refine ⟨?_, ?_, ?_⟩
        · simp only [reduceCtorEq, false_iff]; omega
        · simp only [true_iff]; exact ⟨hw.1, hw.2, hd⟩
        · simp only [reduceCtorEq, false_iff]; tauto
      · rw [if_pos hw, if_neg hd]
        refine ⟨?_, ?_, ?_⟩
        · simp only [reduceCtorEq, false_iff]; omega
        · simp only [reduceCtorEq, false_iff]; tauto
        · simp only [true_iff]; exact ⟨hw.1, hw.2, hd⟩
    · rw [if_neg hw]
      refine ⟨?_, ?_, ?_⟩
      · simp only [true_iff]; omega
      · simp only [reduceCtorEq, false_iff]; tauto
      · simp only [reduceCtorEq, false_iff]; tauto
  · intro offset
    rw [calculatePredictions_eq _ _ (by simp), predictionDates_fixedOffset]
    decide
  · rw [calculatePregnancyRisk_some]; decide
  · rw [calculatePregnancyRisk_some]; decide
  · rw [calculatePregnancyRisk_some]; decide

/-- C5, as stated, fails: `calculatePredictions` does not sort.  On the
history holding the cycle of 2024-01-29 before the cycle of 2024-01-01 it
predicts the next period from 2024-01-01 (2024-01-29), while the history
sorted by `startDate` gives 2024-02-26 (zone UTC). -/
theorem C5_counterexample_unsorted :
    [cycleJan29, cycleJan01].Perm [cycleJan29, cycleJan01] ∧
    sortByStartDate [cycleJan29, cycleJan01] = [cycleJan01, cycleJan29] ∧
    calculatePredictions utc [cycleJan29, cycleJan01]
      = Completion.returns (some (predictionAt (epochDay 2024 1 29) 28)) ∧
    calculatePredictions utc (sortByStartDate [cycleJan29, cycleJan01])
      = Completion.returns (some (predictionAt (epochDay 2024 2 26) 28)) ∧
    calculatePredictions utc [cycleJan29, cycleJan01]
      ≠ calculatePredictions utc (sortByStartDate [cycleJan29, cycleJan01]) := by
  have hs : sortByStartDate [cycleJan29, cycleJan01] = [cycleJan01, cycleJan29] := by
    decide
  refine ⟨List.Perm.refl _, hs, ?_, ?_, ?_⟩
  · rw [calculatePredictions_eq _ _ (by simp)]; decide
  · rw [hs, calculatePredictions_eq _ _ (by simp)]; decide
  · rw [hs, calculatePredictions_eq _ _ (by simp), calculatePredictions_eq _ _ (by simp)]
    decide

/-- C5, amended: `calculatePredictions` takes the last array element as the
reference record and does not sort.  For every zone, every history `h` and
every permutation `h1` of it, the mean of the effective lengths is that of the
sorted history and the predictions returned for `h1` and for the sorted history
carry the same `avgCycleLength`; the whole outcome equals that of the sorted
history when the last element of `h1` has the `startDate` of the last record of
the sorted history, and in particular when `h1` is ascending by `startDate`. -/
theorem C5_order_amended (tz : TimeZone) (h h1 : List CycleRecord) (hp : h1.Perm h) :
    nonzeroMeanLength h1 = nonzeroMeanLength (sortByStartDate h) ∧
    (∀ p q : Predictions,
      calculatePredictions tz h1 = Completion.returns (some p) →
      calculatePredictions tz (sortByStartDate h) = Completion.returns (some q) →
      p.avgCycleLength = q.avgCycleLength) ∧
    (h1.getLast?.map (fun c => c.startDate)
        = (sortByStartDate h).getLast?.map (fun c => c.startDate) →
      calculatePredictions tz h1 = calculatePredictions tz (sortByStartDate h)) ∧
    (h1.Sorted (fun a b => a.startDate ≤ b.startDate) →
      calculatePredictions tz h1 = calculatePredictions tz (sortByStartDate h)) := by
  have hps : h1.Perm (sortByStartDate h) := hp.trans (sortByStartDate_perm h).symm
  have hlen : h1.length = (sortByStartDate h).length := hps.length_eq
  have hsum := perm_sum_effectiveLength _ _ hps
  have hcongr : h1.getLast?.map (fun c => c.startDate)
        = (sortByStartDate h).getLast?.map (fun c => c.startDate) →
      calculatePredictions tz h1 = calculatePredictions tz (sortByStartDate h) :=
    fun hlast => calculatePredictions_congr tz _ _ hlen hsum hlast
  refine ⟨perm_nonzeroMeanLength _ _ hps, ?_, hcongr, ?_⟩
  · intro p q hp1 hq
    rw [returns_avgCycleLength tz _ p hp1, returns_avgCycleLength tz _ q hq, hsum, hlen]
  · intro hs
    apply hcongr
    apply getLast?_startDate_of_map_eq
    exact startDates_eq_of_sorted _ _ hps (sortByStartDate_sorted h) hs

/-- C5, amended, on the two January cycles in the zone UTC: the ascending
arrangement is predicted like the sorted history, whichever arrangement was
sorted. -/
theorem C5_witness_sorted :
    calculatePredictions utc [cycleJan01, cycleJan29]
      = calculatePredictions utc (sortByStartDate [cycleJan29, cycleJan01]) ∧
    calculatePredictions utc [cycleJan01, cycleJan29]
      = Completion.returns (some (predictionAt (epochDay 2024 2 26) 28)) :=
  have hw := C5_order_amended utc [cycleJan29, cycleJan01] [cycleJan01, cycleJan29]
    (List.Perm.swap _ _ _)
  ⟨hw.2.2.2 (by decide), by rw [calculatePredictions_eq _ _ (by simp)]; decide⟩

/-- C6, as stated, fails for a negative `customCycleLength`: an open cycle
declaring the length -3 is averaged with the length -3, not with the default
28 that the same record gets when the field is absent (zone UTC). -/
theorem C6_counterexample_negative :
    (cycleWithLength (-3)).endDate = none ∧
    (cycleWithLength (-3)).customCycleLength = some (-3) ∧
    calculatePredictions utc [cycleWithLength (-3)]
      = Completion.returns (some (predictionAt (epochDay 2023 12 29) (-3))) ∧
    calculatePredictions utc [{ cycleWithLength (-3) with customCycleLength := none }]
      = Completion.returns (some (predictionAt (epochDay 2024 1 29) 28)) ∧
    calculatePredictions utc [cycleWithLength (-3)]
      ≠ calculatePredictions utc [{ cycleWithLength (-3) with customCycleLength := none }] := by
  refine ⟨rfl, rfl, ?_, ?_, ?_⟩
  · rw [calculatePredictions_eq _ _ (by simp)]; decide
  · rw [calculatePredictions_eq _ _ (by simp)]; decide
  · rw [calculatePredictions_eq _ _ (by simp), calculatePredictions_eq _ _ (by simp)]; decide

/-- C6, amended: for every record without an `endDate` whose
`customCycleLength` is zero, `calculatePredictions` gives the same outcome as
if the field were absent (the record counts for 28 days), wherever the record
stands in the history and whatever the zone; a negative `customCycleLength` is
taken as the effective length of the record. -/
theorem C6_zero_length_amended (tz : TimeZone) (pre post : List CycleRecord) (c : CycleRecord)
    (he : c.endDate = none) :
    (c.customCycleLength = some 0 →
      calculatePredictions tz (pre ++ c :: post)
        = calculatePredictions tz (pre ++ { c with customCycleLength := none } :: post)) ∧
    (∀ v : Int, v < 0 → c.customCycleLength = some v → effectiveLength c = v) := by
  constructor
  · intro hv
    apply calculatePredictions_congr
    · simp
    · simp [effectiveLength_open_zero c he hv, effectiveLength_open_absent c he]
    · apply getLast?_startDate_of_map_eq
      simp
  · intro v hneg hv
    exact effectiveLength_open_nonzero c v he hv (by omega)

/-- C6, amended, on an open cycle declaring the length 0 followed by the cycle
of 2024-01-29, in the zone UTC: both records count for 28 days. -/
theorem C6_witness_zero :
    calculatePredictions utc ([] ++ cycleWithLength 0 :: [cycleJan29])
      = calculatePredictions utc
          ([] ++ { cycleWithLength 0 with customCycleLength := none } :: [cycleJan29]) ∧
    calculatePredictions utc [cycleWithLength 0, cycleJan29]
      = Completion.returns (some (predictionAt (epochDay 2024 2 26) 28)) :=
  ⟨(C6_zero_length_amended utc [] [cycleJan29] (cycleWithLength 0) rfl).1 rfl,
   by rw [calculatePredictions_eq _ _ (by simp)]; decide⟩

/-- C7: for every history of `n` records the statistics handler takes exactly
`n - 1` cycle-length samples, sample `i` being `startDate[i+1] - startDate[i]`
in whole days for the adjacent array elements `i` and `i+1`, and
`averageCycleLength` is the mean of the samples rounded to one decimal place,
a tie going up: it is `k / 10` for the integer `k` nearest to ten times the
mean.  It is 0 when `n ≤ 1`. -/
theorem C7_averageCycleLength (h : List CycleRecord) :
    (cycleLengthSamples h).length = h.length - 1 ∧
    (∀ (i : Nat) (a b : CycleRecord), h[i]? = some a → h[i + 1]? = some b →
      (cycleLengthSamples h)[i]? = some (b.startDate - a.startDate)) ∧
    (h.length ≤ 1 → (statistics h).averageCycleLength = 0) ∧
    (∃ k : Int, (statistics h).averageCycleLength = (k : ℚ) / 10 ∧
      (k : ℚ) - 1 / 2 ≤ 10 * meanOf (cycleLengthSamples h) ∧
      10 * meanOf (cycleLengthSamples h) < (k : ℚ) + 1 / 2) := by
  refine ⟨cycleLengthSamples_length h, cycleLengthSamples_getElem? h, ?_, ?_⟩
  · intro hle
    have hl : (cycleLengthSamples h).length = 0 := by
      rw [cycleLengthSamples_length]
      omega
    rw [statistics_eq]
    simp [meanOf, hl, mathRound_zero]
  · refine ⟨mathRound (meanOf (cycleLengthSamples h) * 10), ?_, ?_, ?_⟩
    · rw [statistics_eq]
    · have := (mathRound_spec (meanOf (cycleLengthSamples h) * 10)).1
      linarith
    · have := (mathRound_spec (meanOf (cycleLengthSamples h) * 10)).2
      linarith

/-- C7 on the records starting 2024-01-01 and 2024-01-29: one sample of 28
days and `averageCycleLength = 28.0`. -/
theorem C7_witness_january :
    (cycleLengthSamples [cycleJan01, cycleJan29]).length = 1 ∧
    (cycleLengthSamples [cycleJan01, cycleJan29])[0]? = some 28 ∧
    (statistics [cycleJan01, cycleJan29]).averageCycleLength = 28 :=
  ⟨(C7_averageCycleLength [cycleJan01, cycleJan29]).1,
   by rw [(C7_averageCycleLength [cycleJan01, cycleJan29]).2.1 0 cycleJan01 cycleJan29 rfl rfl]
      decide,
   by rw [statistics_january]⟩

/-- C8, as stated, fails at a tie.  For 41 cycles whose 40 gaps hold 23 gaps
within 2 days of the mean, the exact percentage is 57.5 and its nearest
integer, a tie going up, is 58; the code computes `(23 / 40) * 100` in doubles,
gets 57.49999999999999 and answers 57. -/
theorem C8_counterexample_tie :
    history41.length = 41 ∧
    cycleLengthSamples history41 = gaps40 ∧
    regularCount history41 = 23 ∧
    regularPercent history41 = 115 / 2 ∧
    (statistics history41).regularity = 57 ∧
    ¬ (regularPercent history41 < (((statistics history41).regularity : Int) : ℚ) + 1 / 2) := by
  have hs : cycleLengthSamples history41 = gaps40 := cycleLengthSamples_openCyclesFrom _ _
  have hl : gaps40.length = 40 := by decide
  have hp : regularPercent history41 = 115 / 2 := by
    unfold regularPercent
    rw [regularCount_history41, hs, hl]
    norm_num
  have hr : (statistics history41).regularity = 57 := by
    rw [regularity_eq, regularCount_history41, hs, hl]
    norm_num
    exact mathRound_23_40
  refine ⟨?_, hs, regularCount_history41, hp, hr, ?_⟩
  · unfold history41
    rw [openCyclesFrom_length, hl]
  · rw [hp, hr]
    norm_num

/-- C8, amended: for every history, `regularity` is `Math.round` of the double
product `(count / samples) * 100`, where `count` is the number of samples
within 2 days of the unrounded mean.  It is 0 when there is no sample.  For at
most 100,000,000,000 samples it is the integer nearest to the exact percentage
`100 * count / samples` whenever that percentage is not a tie `k + 1/2`; at a
tie it is `k` or `k + 1`.  For any number of samples it is within
`1/2 + 1/1,000,000,000,000` of the exact percentage, and it is always between
0 and 100. -/
theorem C8_regularity_amended (h : List CycleRecord) :
    (cycleLengthSamples h = [] → (statistics h).regularity = 0) ∧
    (cycleLengthSamples h ≠ [] → (cycleLengthSamples h).length ≤ 100000000000 →
      (∀ k : Int, regularPercent h ≠ (k : ℚ) + 1 / 2) →
      ((statistics h).regularity : ℚ) - 1 / 2 ≤ regularPercent h ∧
        regularPercent h < ((statistics h).regularity : ℚ) + 1 / 2) ∧
    (cycleLengthSamples h ≠ [] → ∀ k : Int, regularPercent h = (k : ℚ) + 1 / 2 →
      (statistics h).regularity = k ∨ (statistics h).regularity = k + 1) ∧
    (cycleLengthSamples h ≠ [] →
      ((statistics h).regularity : ℚ) - 1 / 2 - 1 / 1000000000000 ≤ regularPercent h ∧
        regularPercent h < ((statistics h).regularity : ℚ) + 1 / 2 + 1 / 1000000000000) ∧
    0 ≤ (statistics h).regularity ∧ (statistics h).regularity ≤ 100 := by
  have hle := regularCount_le h
  by_cases hne : cycleLengthSamples h = []
  · have hz : (statistics h).regularity = 0 := by
      rw [regularity_eq, hne]
      simp [mathRound_zero]
    refine ⟨fun _ => hz, fun hc => absurd hne hc, fun hc => absurd hne hc,
      fun hc => absurd hne hc, ?_, ?_⟩
    · rw [hz]
    · rw [hz]; norm_num
  · have hpos : (cycleLengthSamples h).length > 0 := List.length_pos.mpr hne
    have hreg : (statistics h).regularity =
        mathRound (toDouble (toDouble
          ((regularCount h : ℚ) / ((cycleLengthSamples h).length : ℚ)) * 100)) := by
      rw [regularity_eq, if_pos hpos]
    obtain ⟨hy0, hy1, hye⟩ := percent_double (regularCount h) _ hpos hle
    have hs := mathRound_spec (toDouble (toDouble
      ((regularCount h : ℚ) / ((cycleLengthSamples h).length : ℚ)) * 100))
    refine ⟨fun hc => absurd hc hne, ?_, ?_, ?_, ?_, ?_⟩
    · intro _ hN hk
      rw [hreg]
      exact percent_round_exact (regularCount h) _ hpos hle hN hk
    · intro _ k hk
      rw [hreg]
      exact percent_round_tie (regularCount h) _ hpos hle k hk
    · intro _
      rw [hreg]
      unfold regularPercent
      rw [abs_le] at hye
      constructor
      · linarith [hye.1, hye.2, hs.1, hs.2]
      · linarith [hye.1, hye.2, hs.1, hs.2]
    · rw [hreg]
      exact mathRound_nonneg _ hy0
    · rw [hreg]
      exact mathRound_le_of_le _ 100 (by simpa using hy1)

/-- C8, amended, on the records starting 2024-01-01 and 2024-01-29, 28 days
apart: the exact percentage is 100, not a tie, and `regularity = 100`. -/
theorem C8_witness_january :
    (((statistics [cycleJan01, cycleJan29]).regularity : ℚ) - 1 / 2
        ≤ regularPercent [cycleJan01, cycleJan29] ∧
      regularPercent [cycleJan01, cycleJan29]
        < ((statistics [cycleJan01, cycleJan29]).regularity : ℚ) + 1 / 2) ∧
    (0 ≤ (statistics [cycleJan01, cycleJan29]).regularity ∧
      (statistics [cycleJan01, cycleJan29]).regularity ≤ 100) ∧
    (statistics [cycleJan01, cycleJan29]).regularity = 100 :=
  have hw := C8_regularity_amended [cycleJan01, cycleJan29]
  ⟨hw.2.1 (by rw [cycleLengthSamples_january]; simp)
      (by rw [cycleLengthSamples_january]; decide)
      (fun k => by rw [regularPercent_january]; exact half_integer_ne_hundred k),
   hw.2.2.2.2, by rw [statistics_january]⟩

/-- C9: for every history, `averagePeriodLength` is the mean of the inclusive
day spans `endDate - startDate + 1` of exactly the records that have an
`endDate`, rounded to one decimal place, a tie going up (it is `k / 10` for
the integer `k` nearest to ten times the mean), and 0 when no record has an
`endDate`; a record without `endDate` can be removed without changing it; and
`totalCycles` is the number of records. -/
theorem C9_averagePeriodLength (h : List CycleRecord) :
    periodLengthSamples h = specPeriodSpans h ∧
    (specPeriodSpans h).length = h.countP (fun c => c.endDate.isSome) ∧
    ((∀ c ∈ h, c.endDate = none) → (statistics h).averagePeriodLength = 0) ∧
    (∃ k : Int, (statistics h).averagePeriodLength = (k : ℚ) / 10 ∧
      (k : ℚ) - 1 / 2 ≤ 10 * meanOf (specPeriodSpans h) ∧
      10 * meanOf (specPeriodSpans h) < (k : ℚ) + 1 / 2) ∧
    (∀ (pre post : List CycleRecord) (c : CycleRecord), h = pre ++ c :: post →
      c.endDate = none →
      (statistics h).averagePeriodLength = (statistics (pre ++ post)).averagePeriodLength) ∧
    (statistics h).totalCycles = h.length := by
  refine ⟨periodLengthSamples_eq h, specPeriodSpans_length h, ?_, ?_, ?_, ?_⟩
  · intro hn
    rw [statistics_eq, periodLengthSamples_eq, specPeriodSpans_eq_nil h hn]
    simp [meanOf, mathRound_zero]
  · refine ⟨mathRound (meanOf (specPeriodSpans h) * 10), ?_, ?_, ?_⟩
    · rw [statistics_eq, periodLengthSamples_eq]
    · have := (mathRound_spec (meanOf (specPeriodSpans h) * 10)).1
      linarith
    · have := (mathRound_spec (meanOf (specPeriodSpans h) * 10)).2
      linarith
  · intro pre post c hh he
    subst hh
    rw [statistics_eq, statistics_eq, periodLengthSamples_eq, periodLengthSamples_eq,
      specPeriodSpans_append_open pre post c he]
  · rw [statistics_eq]

/-- C9 on the closed cycle 2024-01-01 .. 2024-01-05 followed by the open cycle
of 2024-01-29: one span of 5 days, `averagePeriodLength = 5.0` and
`totalCycles = 2`; the open cycle alone gives `averagePeriodLength = 0`. -/
theorem C9_witness_spans :
    specPeriodSpans [singleCycle, cycleJan29] = [5] ∧
    (statistics [singleCycle, cycleJan29]).averagePeriodLength = 5 ∧
    (statistics [singleCycle, cycleJan29]).totalCycles = 2 ∧
    (statistics [cycleJan29]).averagePeriodLength = 0 := by
  have hw := C9_averagePeriodLength [singleCycle, cycleJan29]
  have hspans : specPeriodSpans [singleCycle, cycleJan29] = [5] := by decide
  refine ⟨hspans, ?_, hw.2.2.2.2.2, ?_⟩
  · have h5 : (statistics [singleCycle, cycleJan29]).averagePeriodLength
        = (mathRound 50 : ℚ) / 10 := by
      rw [statistics_eq, hw.1, hspans]
      norm_num [meanOf]
    have h50 : mathRound 50 = 50 := by
      have := mathRound_intCast 50
      norm_num at this ⊢
      exact this
    rw [h5, h50]
    norm_num
  · exact (C9_averagePeriodLength [cycleJan29]).2.2.1 (by simp [cycleJan29])

/-- C10, as stated, fails: the fertile window starts 5 days before ovulation.
For the single cycle 2024-01-01 .. 2024-01-05 (zone UTC) the date 2023-12-18
lies in the fertile window 2023-12-18 .. 2023-12-24, is classified `medium`,
and is 5 days away from the ovulation date 2023-12-23.  On a server in the
zone Europe/Paris the closed cycle 2024-11-06 .. 2024-11-10 gets the ovulation
date 2024-10-28 and a window that starts on 2024-10-22, 6 days before it. -/
theorem C10_counterexample_windowStart :
    calculatePredictions utc [singleCycle] = Completion.returns (some singleCyclePredictions) ∧
    singleCyclePredictions.fertileWindow.start ≤ epochDay 2023 12 18 ∧
    epochDay 2023 12 18 ≤ singleCyclePredictions.fertileWindow.end_ ∧
    calculatePregnancyRisk (epochDay 2023 12 18) (some singleCyclePredictions) = Risk.medium ∧
    |epochDay 2023 12 18 - singleCyclePredictions.ovulation| = 5 ∧
    ¬ |epochDay 2023 12 18 - singleCyclePredictions.ovulation| ≤ 2 ∧
    calculatePredictions paris2024 [cycleNov06] = Completion.returns (some
      { nextPeriod := epochDay 2024 11 11
        ovulation := epochDay 2024 10 28
        fertileWindow := { start := epochDay 2024 10 22, end_ := epochDay 2024 10 29 }
        avgCycleLength := 5 }) ∧
    |epochDay 2024 10 22 - epochDay 2024 10 28| = 6 := by
  refine ⟨calculatePredictions_singleCycle, by decide, by decide, ?_, by decide, by decide,
    ?_, by decide⟩
  · rw [calculatePregnancyRisk_some]
    decide
  · rw [calculatePredictions_eq _ _ (by simp)]; decide

/-- C10, amended: on a server whose zone has a fixed offset from UTC, for
every prediction returned by `calculatePredictions` and every event date inside
its inclusive fertile window, the distance `|eventDate - ovulation|` in whole
days never exceeds 5; the dates of the window that are not `high` are those
from 5 to 2 days before ovulation. -/
theorem C10_window_distance_amended (offset : Int) (h : List CycleRecord) (p : Predictions)
    (e : Int) (hp : calculatePredictions (fixedOffset offset) h = Completion.returns (some p))
    (hs : p.fertileWindow.start ≤ e) (he : e ≤ p.fertileWindow.end_) :
    |e - p.ovulation| ≤ 5 ∧
    (calculatePregnancyRisk e (some p) ≠ Risk.high ↔
      (p.ovulation - 5 ≤ e ∧ e ≤ p.ovulation - 2)) := by
  obtain ⟨ho, hws, hwe⟩ := fixedOffset_returns offset h p hp
  constructor
  · rw [abs_le]
    constructor <;> omega
  · rw [calculatePregnancyRisk_some, if_pos ⟨hs, he⟩]
    by_cases hd : |e - p.ovulation| ≤ 1
    · rw [if_pos hd]
      rw [abs_le] at hd
      simp only [ne_eq, not_true_eq_false, false_iff]
      omega
    · rw [if_neg hd]
      rw [abs_le] at hd
      simp only [ne_eq, reduceCtorEq, not_false_eq_true, true_iff]
      omega

/-- C10, amended, on the single cycle 2024-01-01 .. 2024-01-05 in the zone
UTC: the date 2023-12-20 of the fertile window is 3 days from ovulation and not
`high`. -/
theorem C10_witness_singleCycle :
    |epochDay 2023 12 20 - singleCyclePredictions.ovulation| ≤ 5 ∧
    (calculatePregnancyRisk (epochDay 2023 12 20) (some singleCyclePredictions) ≠ Risk.high ↔
      (singleCyclePredictions.ovulation - 5 ≤ epochDay 2023 12 20 ∧
        epochDay 2023 12 20 ≤ singleCyclePredictions.ovulation - 2)) :=
  C10_window_distance_amended 0 [singleCycle] singleCyclePredictions (epochDay 2023 12 20)
    calculatePredictions_singleCycle (by decide) (by decide)

/-- C11, at the failing input: after two cycles are logged on 2024-01-01 and
2024-01-29 the stored list is ascending; moving the start of the first one to
2024-03-01 through `PUT /api/cycles/:id` leaves it in first position, so the
stored list is no longer ascending by `startDate`, and `calculatePredictions`
takes the cycle of 2024-01-29 as the last one (next period 2024-02-26, where
the sorted list gives 2024-03-29; zone UTC). -/
theorem C11_put_breaks_order :
    Ascending (runCycles (moveFirstCycle.take 2)) ∧
    runCycles moveFirstCycle = [cycleMar01, cycleJan29] ∧
    ¬ Ascending (runCycles moveFirstCycle) ∧
    calculatePredictions utc (runCycles moveFirstCycle)
      = Completion.returns (some (predictionAt (epochDay 2024 2 26) 28)) ∧
    calculatePredictions utc (sortByStartDate (runCycles moveFirstCycle))
      = Completion.returns (some (predictionAt (epochDay 2024 3 29) 28)) := by
  have hr : runCycles moveFirstCycle = [cycleMar01, cycleJan29] := by decide
  have hs : sortByStartDate [cycleMar01, cycleJan29] = [cycleJan29, cycleMar01] := by decide
  refine ⟨by decide, hr, by decide, ?_, ?_⟩
  · rw [hr, calculatePredictions_eq _ _ (by simp)]; decide
  · rw [hr, hs, calculatePredictions_eq _ _ (by simp)]; decide

/-- C12: for every history with at least two records, in any order, the
unrounded mean of the cycle-length samples of the statistics handler is
`(startDate of the last array element - startDate of the first array element)
/ (n - 1)`; `averageCycleLength` is that mean rounded to one decimal place, so
every history of the same length with the same first and last `startDate` has
the same `averageCycleLength`. -/
theorem C12_mean_telescopes (h : List CycleRecord) (hn : 2 ≤ h.length)
    (first last : CycleRecord) (hf : h.head? = some first) (hl : h.getLast? = some last) :
    meanOf (cycleLengthSamples h)
      = ((last.startDate - first.startDate : Int) : ℚ) / ((h.length : ℚ) - 1) ∧
    (statistics h).averageCycleLength
      = (mathRound (((last.startDate - first.startDate : Int) : ℚ) / ((h.length : ℚ) - 1) * 10)
          : ℚ) / 10 ∧
    ∀ (h1 : List CycleRecord) (first1 last1 : CycleRecord),
      h1.length = h.length → h1.head? = some first1 → h1.getLast? = some last1 →
      first1.startDate = first.startDate → last1.startDate = last.startDate →
      (statistics h1).averageCycleLength = (statistics h).averageCycleLength := by
  have hm := meanOf_cycleLengthSamples h hn first last hf hl
  refine ⟨hm, ?_, ?_⟩
  · rw [statistics_eq, hm]
  · intro h1 first1 last1 hlen hf1 hl1 hfs hls
    have hm1 := meanOf_cycleLengthSamples h1 (by omega) first1 last1 hf1 hl1
    rw [statistics_eq, statistics_eq, hm, hm1, hfs, hls, hlen]

/-- C12 on three cycles starting 2024-01-01, 2024-01-11 and 2024-02-26: the
mean of the samples 10 and 46 is (2024-02-26 - 2024-01-01) / 2 = 28;
moving the middle cycle to 2024-01-29 keeps `averageCycleLength` and changes
`regularity` from 0 to 100. -/
theorem C12_witness_middle :
    meanOf (cycleLengthSamples [cycleJan01, cycleJan11, cycleFeb26])
      = ((cycleFeb26.startDate - cycleJan01.startDate : Int) : ℚ) / (((3 : Nat) : ℚ) - 1) ∧
    cycleFeb26.startDate - cycleJan01.startDate = 56 ∧
    (statistics [cycleJan01, cycleJan29, cycleFeb26]).averageCycleLength
      = (statistics [cycleJan01, cycleJan11, cycleFeb26]).averageCycleLength ∧
    (statistics [cycleJan01, cycleJan11, cycleFeb26]).regularity = 0 ∧
    (statistics [cycleJan01, cycleJan29, cycleFeb26]).regularity = 100 :=
  have hw := C12_mean_telescopes [cycleJan01, cycleJan11, cycleFeb26] (by decide)
    cycleJan01 cycleFeb26 rfl rfl
  ⟨hw.1, by decide,
   hw.2.2 [cycleJan01, cycleJan29, cycleFeb26] cycleJan01 cycleFeb26 rfl rfl rfl rfl rfl,
   regularity_irregular, regularity_regular⟩

end CycleFem
